import Mathlib

/-!
# Verification of the `rlibphonenumber` phone-number engine

Shallow embedding, in Lean 4, of the parts of the `rlibphonenumber` Rust
library (a port of libphonenumber) that the specification claims talk
about.  Each definition is a direct translation of the Rust function of
the same (snake_case) name from `src/phonenumberutil/…`; machine
integers are modelled as `Int`/`Nat` (no overflow is reachable in the
translated code paths: lengths are small and national numbers are
bounded by 17 decimal digits, below `u64::MAX`), fallible code returns
`Except`/`Option`, and byte positions in `&str` slicing are modelled at
character granularity, which coincides with the Rust byte positions on
the ASCII data handled by the translated paths (where the distinction
matters, a checked byte-level model is used, see `takeBytes`).

External capabilities consumed by the library (the `regex` engine, the
`dec_from_char` digit tables, the compiled metadata blob, which is a
generated file that is not part of the sources) are modelled explicitly
and marked as such in their doc comments.
-/

set_option maxRecDepth 4000

namespace RPhone

/-! ## Enums (from `src/phonenumberutil/enums.rs` and `errors.rs`) -/

/-- `PhoneNumberType` from `enums.rs`. -/
inductive PhoneNumberType where
  | FixedLine
  | Mobile
  | FixedLineOrMobile
  | TollFree
  | PremiumRate
  | SharedCost
  | VoIP
  | PersonalNumber
  | Pager
  | UAN
  | VoiceMail
  | Unknown
  deriving DecidableEq, Repr

/-- `PhoneNumberFormat` from `enums.rs`. -/
inductive PhoneNumberFormat where
  | E164
  | International
  | National
  | RFC3966
  deriving DecidableEq, Repr

/-- `MatchType` from `enums.rs`. -/
inductive MatchType where
  | NoMatch
  | ShortNsnMatch
  | NsnMatch
  | ExactMatch
  deriving DecidableEq, Repr

/-- `NumberLengthType` (`ValidNumberLenType`) from `enums.rs`: the two Ok
outcomes of a possible-length check. -/
inductive NumberLengthType where
  | IsPossible
  | IsPossibleLocalOnly
  deriving DecidableEq, Repr

/-- `ValidationError` (`ValidationResultErr`) from `errors.rs`. -/
inductive ValidationError where
  | InvalidCountryCode
  | TooShort
  | InvalidLength
  | TooLong
  deriving DecidableEq, Repr

/-- `NotANumberError` from `errors.rs`; payloads of the Rust variants are
dropped (they carry only diagnostic data). -/
inductive NotANumberError where
  | NotMatchedValidNumberPattern
  | InvalidPhoneContext
  | FailedToParseNumberAsInt
  | NoValidStartCharacter
  | NotANumber
  deriving DecidableEq, Repr

/-- `ParseError` from `errors.rs`.  The Rust `NotANumber` variant nests a
`NotANumberError` (with `ExtractNumberError` further nested; the two
extraction errors are flattened into `NotANumberError` here, mirroring the
`From<ExtractNumberError> for ParseError` conversion). -/
inductive ParseError where
  | InvalidCountryCode
  | NotANumber (e : NotANumberError)
  | TooShortAfterIdd
  | TooShortNsn
  | TooLongNsn
  deriving DecidableEq, Repr

/-- `CountryCodeSource` from the protobuf `PhoneNumber` message. -/
inductive CountryCodeSource where
  | UNSPECIFIED
  | FROM_NUMBER_WITH_PLUS_SIGN
  | FROM_NUMBER_WITH_IDD
  | FROM_NUMBER_WITHOUT_PLUS_SIGN
  | FROM_DEFAULT_COUNTRY
  deriving DecidableEq, Repr

/-! ## Constants (from `src/phonenumberutil/helper_constants.rs`) -/

/-- `MIN_LENGTH_FOR_NSN` -/
def MIN_LENGTH_FOR_NSN : Nat := 2

/-- `MAX_LENGTH_FOR_NSN` -/
def MAX_LENGTH_FOR_NSN : Nat := 17

/-- `MAX_LENGTH_COUNTRY_CODE` -/
def MAX_LENGTH_COUNTRY_CODE : Nat := 3

/-- `REGION_CODE_FOR_NON_GEO_ENTITY` -/
def REGION_CODE_FOR_NON_GEO_ENTITY : String := "001"

/-- `RegionCode::get_unknown()` from `src/i18n/region_code.rs`. -/
def regionCodeUnknown : String := "ZZ"

/-! ## Metadata model (protobuf `PhoneMetadata` messages)

The protobuf-generated message types are not under `src/` (they are
generated); the structures below model the fields that the translated
functions read, with protobuf getter defaults (empty string / empty
list / 0). -/

/-- `NumberFormat` metadata message (fields used by formatting). -/
structure NumberFormat where
  pattern : String := ""
  format : String := ""
  leadingDigitsPattern : List String := []
  nationalPrefixFormattingRule : String := ""
  nationalPrefixOptionalWhenFormatting : Bool := false
  domesticCarrierCodeFormattingRule : String := ""
  deriving DecidableEq, Repr

/-- `PhoneNumberDesc` metadata message. -/
structure PhoneNumberDesc where
  nationalNumberPattern : String := ""
  possibleLength : List Int := []
  possibleLengthLocalOnly : List Int := []
  exampleNumber : String := ""
  deriving DecidableEq, Repr

/-- `PhoneMetadata` metadata message (fields used by the translated
functions). -/
structure PhoneMetadata where
  generalDesc : PhoneNumberDesc := {}
  fixedLine : PhoneNumberDesc := {}
  mobile : PhoneNumberDesc := {}
  tollFree : PhoneNumberDesc := {}
  premiumRate : PhoneNumberDesc := {}
  sharedCost : PhoneNumberDesc := {}
  voip : PhoneNumberDesc := {}
  personalNumber : PhoneNumberDesc := {}
  pager : PhoneNumberDesc := {}
  uan : PhoneNumberDesc := {}
  voicemail : PhoneNumberDesc := {}
  id : String := ""
  countryCode : Int := 0
  internationalPrefix : String := ""
  nationalPrefix : String := ""
  preferredExtnPrefix : String := ""
  hasPreferredExtnPrefix : Bool := false
  nationalPrefixForParsing : String := ""
  nationalPrefixTransformRule : String := ""
  numberFormat : List NumberFormat := []
  intlNumberFormat : List NumberFormat := []
  mainCountryForCode : Bool := false
  leadingDigits : String := ""
  deriving DecidableEq, Repr

/-- `get_number_desc_by_type` from `helper_functions.rs`. -/
def getNumberDescByType (metadata : PhoneMetadata) (phoneNumberType : PhoneNumberType) :
    PhoneNumberDesc :=
  match phoneNumberType with
  | .PremiumRate => metadata.premiumRate
  | .TollFree => metadata.tollFree
  | .Mobile => metadata.mobile
  | .FixedLine | .FixedLineOrMobile => metadata.fixedLine
  | .SharedCost => metadata.sharedCost
  | .VoIP => metadata.voip
  | .PersonalNumber => metadata.personalNumber
  | .Pager => metadata.pager
  | .UAN => metadata.uan
  | .VoiceMail => metadata.voicemail
  | .Unknown => metadata.generalDesc

/-- `desc_has_possible_number_data` from `helper_functions.rs`:
`desc.possible_length.len() != 1 || desc.possible_length[0] != -1`. -/
def descHasPossibleNumberData (desc : PhoneNumberDesc) : Bool :=
  desc.possibleLength.length != 1 ||
    ((desc.possibleLength.head?.map (fun l => l != -1)).getD false)

/-- Ascending insertion of an `Int` into a sorted list (helper for
`sortInts`). -/
def insertSorted (x : Int) : List Int → List Int
  | [] => [x]
  | y :: ys => if x ≤ y then x :: y :: ys else y :: insertSorted x ys

/-- Ascending sort, modelling Rust's `Vec::sort` on `i32` (for integer
elements every correct ascending sort produces the same list, so the
choice of algorithm is immaterial). -/
def sortInts : List Int → List Int
  | [] => []
  | x :: xs => insertSorted x (sortInts xs)

/-! ## `test_number_length` (from `helper_functions.rs`, lines 332-414) -/

/-- The straight-line tail of `test_number_length` (source lines 385-413),
applied to the final possible-length and local-only lists: the `-1`
sentinel check, the local-only membership check, and the
minimum/maximum/membership classification. -/
def lengthVerdict (possibleLengths localLengths : List Int) (actualLength : Int) :
    Except ValidationError NumberLengthType :=
  -- If the type is not supported at all (possible lengths start with -1,
  -- which in particular covers an empty list via `unwrap_or(&-1)`),
  -- return invalid length.
  if possibleLengths.headD (-1) = -1 then .error .InvalidLength
  else if localLengths.contains actualLength then .ok .IsPossibleLocalOnly
  else
    let minimumLength := possibleLengths.headD (-1)
    if minimumLength = actualLength then .ok .IsPossible
    else if minimumLength > actualLength then .error .TooShort
    else if possibleLengths.getLastD (-1) < actualLength then .error .TooLong
    -- We skip the first element; it has already been checked.
    else if (possibleLengths.drop 1).contains actualLength then .ok .IsPossible
    else .error .InvalidLength

/-- Body of `test_number_length` (`helper_functions.rs`).  The source
recurses exactly once: when the type is `FixedLineOrMobile` and the
fixed-line description carries no possible-number data it calls itself
with `Mobile` (which never recurses again), so the recursive call is
passed in as the thunk `recMobile` and tied below in `testNumberLength`.
`actual_length` is the Rust byte length `phone_number.len()`, which
equals the character count on the (ASCII digit) strings this function is
applied to; it is modelled as `String.length`. -/
def testNumberLengthF (recMobile : Unit → Except ValidationError NumberLengthType)
    (phoneNumber : String) (phoneMetadata : PhoneMetadata)
    (phoneNumberType : PhoneNumberType) : Except ValidationError NumberLengthType :=
  let descForType := getNumberDescByType phoneMetadata phoneNumberType
  let possibleLengths :=
    if descForType.possibleLength.length = 0 then phoneMetadata.generalDesc.possibleLength
    else descForType.possibleLength
  let localLengths := descForType.possibleLengthLocalOnly
  -- The nested `if phone_number_type == FIXED_LINE_OR_MOBILE { if !fixed-has-data
  -- { recurse with MOBILE } else { maybe merge mobile } }` of the source is
  -- flattened into one early-out plus one merge step.
  if phoneNumberType = .FixedLineOrMobile ∧
      ¬ descHasPossibleNumberData (getNumberDescByType phoneMetadata .FixedLine) then
    recMobile ()
  else
    let merged :=
      if phoneNumberType = .FixedLineOrMobile then
        let mobileDesc := getNumberDescByType phoneMetadata .Mobile
        if descHasPossibleNumberData mobileDesc then
          let lenToAppend :=
            if mobileDesc.possibleLength.length = 0 then
              phoneMetadata.generalDesc.possibleLength
            else mobileDesc.possibleLength
          (sortInts (possibleLengths ++ lenToAppend),
           if localLengths.length = 0 then mobileDesc.possibleLengthLocalOnly
           else sortInts (localLengths ++ mobileDesc.possibleLengthLocalOnly))
        else (possibleLengths, localLengths)
      else (possibleLengths, localLengths)
    lengthVerdict merged.1 merged.2 (phoneNumber.length : Int)

/-- `test_number_length` from `helper_functions.rs`.  The single possible
recursive call (with `Mobile`) is tied here; the innermost fallback is
unreachable because the recursive call's type `Mobile` is not
`FixedLineOrMobile`. -/
def testNumberLength (phoneNumber : String) (phoneMetadata : PhoneMetadata)
    (phoneNumberType : PhoneNumberType) : Except ValidationError NumberLengthType :=
  testNumberLengthF
    (fun _ =>
      testNumberLengthF (fun _ => .error .InvalidLength) phoneNumber phoneMetadata .Mobile)
    phoneNumber phoneMetadata phoneNumberType

/-- `test_number_length_with_unknown_type` from `helper_functions.rs`. -/
def testNumberLengthWithUnknownType (phoneNumber : String) (phoneMetadata : PhoneMetadata) :
    Except ValidationError NumberLengthType :=
  testNumberLength phoneNumber phoneMetadata .Unknown

/-! ### Specification-side classification (for claim C2) -/

/-- The effective (type-specific, FIXED_LINE_OR_MOBILE-merged)
possible-length and local-only-length lists that `test_number_length`
classifies against, as described by the claim. -/
def effectiveLengthListsBase (m : PhoneMetadata) (t : PhoneNumberType) :
    List Int × List Int :=
  let desc := getNumberDescByType m t
  let possible :=
    if desc.possibleLength.length = 0 then m.generalDesc.possibleLength
    else desc.possibleLength
  let locals := desc.possibleLengthLocalOnly
  if t = .FixedLineOrMobile then
    let mobileDesc := getNumberDescByType m .Mobile
    if descHasPossibleNumberData mobileDesc then
      let lenToAppend :=
        if mobileDesc.possibleLength.length = 0 then m.generalDesc.possibleLength
        else mobileDesc.possibleLength
      (sortInts (possible ++ lenToAppend),
       if locals.length = 0 then mobileDesc.possibleLengthLocalOnly
       else sortInts (locals ++ mobileDesc.possibleLengthLocalOnly))
    else (possible, locals)
  else (possible, locals)

/-- Effective length lists including the FIXED_LINE_OR_MOBILE fallback to
MOBILE when no fixed-line possible-number data exists. -/
def effectiveLengthLists (m : PhoneMetadata) (t : PhoneNumberType) : List Int × List Int :=
  if t = .FixedLineOrMobile ∧ ¬ descHasPossibleNumberData (getNumberDescByType m .FixedLine)
  then effectiveLengthListsBase m .Mobile
  else effectiveLengthListsBase m t

/-- Classification function written from the words of the (amended) claim:
a possible-length list starting with the sentinel −1 means the type is
unsupported (InvalidLength); otherwise a length in the local-only list is
IsPossibleLocalOnly; below the minimum is TooShort; above the maximum is
TooLong; equal to the minimum or present elsewhere in the sorted list is
IsPossible; anything else is InvalidLength.  For the (by construction
sorted) metadata lists the minimum and maximum are the first and last
elements. -/
def specTestNumberLength (possibleLengths localLengths : List Int) (actualLength : Int) :
    Except ValidationError NumberLengthType :=
  if possibleLengths.headD (-1) = -1 then .error .InvalidLength
  else if localLengths.contains actualLength then .ok .IsPossibleLocalOnly
  else if actualLength < possibleLengths.headD (-1) then .error .TooShort
  else if possibleLengths.getLastD (-1) < actualLength then .error .TooLong
  else if actualLength = possibleLengths.headD (-1) ∨
      (possibleLengths.drop 1).contains actualLength then .ok .IsPossible
  else .error .InvalidLength

/-! ## The `PhoneNumber` protobuf message

The generated protobuf code is not under `src/`; the message is modelled
with explicit field presence (`Option`) and the protobuf getter defaults
of the upstream `phonenumber.proto` (0 for the numeric fields, `""` for
strings, `false` for `italian_leading_zero` and 1 for
`number_of_leading_zeros`, which is declared with `[default = 1]`).
Protobuf message equality (`PartialEq` on the generated struct) compares
field presence as well as values, which is exactly structural equality
of this model. -/

structure PhoneNumber where
  countryCode : Option Int := none
  nationalNumber : Option Nat := none
  extension : Option String := none
  italianLeadingZero : Option Bool := none
  numberOfLeadingZeros : Option Int := none
  rawInput : Option String := none
  countryCodeSource : Option CountryCodeSource := none
  preferredDomesticCarrierCode : Option String := none
  deriving DecidableEq, Repr

/-- Getter `country_code()` (protobuf default 0). -/
def PhoneNumber.countryCodeGet (p : PhoneNumber) : Int := p.countryCode.getD 0

/-- Getter `national_number()` (protobuf default 0). -/
def PhoneNumber.nationalNumberGet (p : PhoneNumber) : Nat := p.nationalNumber.getD 0

/-- Getter `extension()` (protobuf default `""`). -/
def PhoneNumber.extensionGet (p : PhoneNumber) : String := p.extension.getD ""

/-- Getter `italian_leading_zero()` (protobuf default `false`). -/
def PhoneNumber.italianLeadingZeroGet (p : PhoneNumber) : Bool :=
  p.italianLeadingZero.getD false

/-- Getter `number_of_leading_zeros()` (protobuf `[default = 1]`). -/
def PhoneNumber.numberOfLeadingZerosGet (p : PhoneNumber) : Int :=
  p.numberOfLeadingZeros.getD 1

/-- Getter `raw_input()` (protobuf default `""`). -/
def PhoneNumber.rawInputGet (p : PhoneNumber) : String := p.rawInput.getD ""

/-- `has_extension()`. -/
def PhoneNumber.hasExtension (p : PhoneNumber) : Bool := p.extension.isSome

/-- `preferred_domestic_carrier_code()` getter (protobuf default `""`). -/
def PhoneNumber.preferredDomesticCarrierCodeGet (p : PhoneNumber) : String :=
  p.preferredDomesticCarrierCode.getD ""

/-! ## `is_number_match` and its helpers -/

/-- `copy_core_fields_only` from `helper_functions.rs`: build a fresh
number carrying only the identity fields (the destination starts from a
default message; `set_…` makes a field present). -/
def copyCoreFieldsOnly (fromNumber : PhoneNumber) : PhoneNumber :=
  { countryCode := some fromNumber.countryCodeGet
    nationalNumber := some fromNumber.nationalNumberGet
    extension := fromNumber.extension
    italianLeadingZero :=
      if fromNumber.italianLeadingZeroGet then some true else none
    numberOfLeadingZeros :=
      -- This field is only relevant if there are leading zeros at all.
      if fromNumber.italianLeadingZeroGet then some fromNumber.numberOfLeadingZerosGet
      else none }

/-- Rust `str::ends_with`, computed on the character lists (the strings
compared by the matcher are ASCII decimal renderings, for which byte and
character suffixes coincide). -/
def strEndsWith (s t : String) : Bool := t.data.isSuffixOf s.data

/-- `is_national_number_suffix_of_the_other` from `helper_functions.rs`:
the `itoa` decimal renderings (no leading zeros) of the two national
numbers, one a suffix of the other (equality included). -/
def isNationalNumberSuffixOfTheOther (firstNumber secondNumber : PhoneNumber) : Bool :=
  let firstNumberNationalNumber := Nat.repr firstNumber.nationalNumberGet
  let secondNumberNationalNumber := Nat.repr secondNumber.nationalNumberGet
  strEndsWith firstNumberNationalNumber secondNumberNationalNumber ||
    strEndsWith secondNumberNationalNumber firstNumberNationalNumber

/-- `is_number_match` from `phonenumberutil.rs` (lines 2589-2637). -/
def isNumberMatch (firstNumberIn secondNumberIn : PhoneNumber) : MatchType :=
  -- Early exit if both had extensions and these are different.
  if firstNumberIn.hasExtension ∧ secondNumberIn.hasExtension ∧
      firstNumberIn.extensionGet ≠ secondNumberIn.extensionGet then
    .NoMatch
  else
    let firstNumber := copyCoreFieldsOnly firstNumberIn
    let secondNumber := copyCoreFieldsOnly secondNumberIn
    let firstNumberCountryCode := firstNumber.countryCodeGet
    let secondNumberCountryCode := secondNumber.countryCodeGet
    if firstNumberCountryCode ≠ 0 ∧ secondNumberCountryCode ≠ 0 then
      if firstNumber = secondNumber then .ExactMatch
      else if firstNumberCountryCode = secondNumberCountryCode ∧
          isNationalNumberSuffixOfTheOther firstNumber secondNumber then
        .ShortNsnMatch
      else .NoMatch
    else
      let firstNumber := { firstNumber with countryCode := some secondNumberCountryCode }
      if firstNumber = secondNumber then .NsnMatch
      else if isNationalNumberSuffixOfTheOther firstNumber secondNumber then .ShortNsnMatch
      else .NoMatch

/-! ## `truncate_too_long_number` (source lines 1696-1721)

The validity oracles (`is_valid_number`, which walks metadata and the
regex engine, and the `TooShort` outcome of
`is_possible_number_with_reason`) are passed in as function parameters:
the claim (C10) is a frame property that holds for every behaviour of
these oracles, so they are universally quantified rather than modelled.
`is_valid_number` can also fail with an internal (library-integrity)
error, hence the `Except Unit` shape. -/

/-- The body of the `loop` in `truncate_too_long_number`: divide the
national number by 10, give up (`Ok(false)`, modelled as `none`) when the
result is possible-too-short or zero, stop with the new value when valid,
else loop.  Terminates because `nn / 10 < nn` whenever the recursive call
is reached (then `nn / 10 ≠ 0`, so `nn ≠ 0`). -/
def truncateLoop (isPossibleTooShort : PhoneNumber → Bool)
    (isValid : PhoneNumber → Except Unit Bool) (phoneNumber : PhoneNumber) (nn : Nat) :
    Except Unit (Option Nat) :=
  let nn' := nn / 10
  let numberCopy := { phoneNumber with nationalNumber := some nn' }
  if isPossibleTooShort numberCopy ∨ nn' = 0 then .ok none
  else
    match isValid numberCopy with
    | .error e => .error e
    | .ok true => .ok (some nn')
    | .ok false => truncateLoop isPossibleTooShort isValid phoneNumber nn'
termination_by nn
decreasing_by
  rename_i hcond
  have hnz : nn / 10 ≠ 0 := by
    intro h
    exact hcond (Or.inr h)
  have : 0 < nn := by
    by_contra hn
    have : nn = 0 := by omega
    rw [this] at hnz
    exact hnz rfl
  exact Nat.div_lt_self this (by omega)

/-- `truncate_too_long_number` from `phonenumberutil.rs`; the returned
`PhoneNumber` is the (possibly truncated) final state of the `&mut`
argument. -/
def truncateTooLongNumber (isPossibleTooShort : PhoneNumber → Bool)
    (isValid : PhoneNumber → Except Unit Bool) (phoneNumber : PhoneNumber) :
    Except Unit (Bool × PhoneNumber) :=
  match isValid phoneNumber with
  | .error e => .error e
  | .ok true => .ok (true, phoneNumber)
  | .ok false =>
    match truncateLoop isPossibleTooShort isValid phoneNumber phoneNumber.nationalNumberGet with
    | .error e => .error e
    | .ok none => .ok (false, phoneNumber)
    | .ok (some nn) => .ok (true, { phoneNumber with nationalNumber := some nn })

/-! ## `normalize` and its helpers

`normalize` (source lines 2288-2298) picks the alpha-keypad mapping when
`valid_alpha_phone_pattern` (regex `(?:.*?[A-Za-z])` repeated three
times, then `.*`, run as an unanchored `is_match`) fires, and digit-only
normalization (the external `dec_from_char` crate) otherwise. -/

/-- Bool test for an ASCII decimal digit `'0'..'9'`. -/
def isAsciiDigitChar (c : Char) : Bool := decide (48 ≤ c.toNat ∧ c.toNat ≤ 57)

/-- Bool test for an ASCII letter `A-Za-z`. -/
def isAsciiAlpha (c : Char) : Bool :=
  decide ((65 ≤ c.toNat ∧ c.toNat ≤ 90) ∨ (97 ≤ c.toNat ∧ c.toNat ≤ 122))

/-- Rust `char::to_ascii_uppercase`. -/
def toAsciiUpper (c : Char) : Char :=
  if 97 ≤ c.toNat ∧ c.toNat ≤ 122 then Char.ofNat (c.toNat - 32) else c

/-- Modelled from the external `dec_from_char` crate (not part of this
repository): the decimal value of a Unicode `Nd` digit, restricted to
the ASCII, fullwidth, Arabic-Indic, extended Arabic-Indic and Devanagari
ranges (the inputs exercised here are ASCII; other `Nd` ranges behave
identically and are omitted). -/
def decDigitValue (c : Char) : Option Nat :=
  let n := c.toNat
  if 48 ≤ n ∧ n ≤ 57 then some (n - 48)
  else if 0xFF10 ≤ n ∧ n ≤ 0xFF19 then some (n - 0xFF10)
  else if 0x660 ≤ n ∧ n ≤ 0x669 then some (n - 0x660)
  else if 0x6F0 ≤ n ∧ n ≤ 0x6F9 then some (n - 0x6F0)
  else if 0x966 ≤ n ∧ n ≤ 0x96F then some (n - 0x966)
  else none

/-- The ASCII digit character for a decimal value (only applied to values
`≤ 9`). -/
def digitChar (v : Nat) : Char := Char.ofNat (48 + v)

/-- `normalize_digits_only` (source line 1032), i.e. the external
`dec_from_char::normalize_decimals_filtering`: map every decimal digit
to its ASCII form and drop every other character. -/
def normalizeDigitsOnly (phoneNumber : String) : String :=
  String.mk (phoneNumber.data.filterMap (fun c => (decDigitValue c).map digitChar))

/-- The `alpha_mappings` table from
`phone_number_regexps_and_mappings.rs` (uppercase keypad letters only,
as in the source). -/
def alphaMappingsList : List (Char × Char) :=
  [('A', '2'), ('B', '2'), ('C', '2'),
   ('D', '3'), ('E', '3'), ('F', '3'),
   ('G', '4'), ('H', '4'), ('I', '4'),
   ('J', '5'), ('K', '5'), ('L', '5'),
   ('M', '6'), ('N', '6'), ('O', '6'),
   ('P', '7'), ('Q', '7'), ('R', '7'), ('S', '7'),
   ('T', '8'), ('U', '8'), ('V', '8'),
   ('W', '9'), ('X', '9'), ('Y', '9'), ('Z', '9')]

/-- The ASCII-digit identity table (`ascii_digit_mappings`). -/
def asciiDigitMappingsList : List (Char × Char) :=
  [('0', '0'), ('1', '1'), ('2', '2'), ('3', '3'), ('4', '4'),
   ('5', '5'), ('6', '6'), ('7', '7'), ('8', '8'), ('9', '9')]

/-- `alpha_phone_mappings`: the union of the two tables above (the key
sets are disjoint, so association-list lookup models the `HashMap`). -/
def alphaPhoneMappingsList : List (Char × Char) :=
  alphaMappingsList ++ asciiDigitMappingsList

/-- `normalize_helper` from `helper_functions.rs`: replace every
character whose ASCII-uppercased form is a key of the table, keep or
drop the others according to `remove_non_matches`. -/
def normalizeHelper (normalizationReplacements : List (Char × Char))
    (removeNonMatches : Bool) (phoneNumber : String) : String :=
  String.mk (phoneNumber.data.filterMap (fun phoneChar =>
    match normalizationReplacements.lookup (toAsciiUpper phoneChar) with
    | some replacement => some replacement
    | none => if removeNonMatches then none else some phoneChar))

/-- Split a character list at `'\n'` (helper for the model of the
`valid_alpha_phone_pattern` match, whose `.` atoms cannot cross a
newline). -/
def splitOnNewline : List Char → List (List Char)
  | [] => [[]]
  | c :: cs =>
    let r := splitOnNewline cs
    if c = '\n' then [] :: r
    else
      match r with
      | [] => [[c]]
      | seg :: rest => (c :: seg) :: rest

/-- Modelled from the external regex capability: the unanchored
`is_match` of `valid_alpha_phone_pattern` (three `.*?[A-Za-z]` blocks
then `.*`) succeeds exactly when three ASCII letters occur with no
newline between them, i.e. when some newline-free segment holds at
least three letters. -/
def validAlphaPhoneMatch (s : String) : Bool :=
  (splitOnNewline s.data).any (fun seg => decide (3 ≤ (seg.filter isAsciiAlpha).length))

/-- `normalize` from `phonenumberutil.rs` (lines 2288-2298). -/
def normalize (phoneNumber : String) : String :=
  if validAlphaPhoneMatch phoneNumber then
    normalizeHelper alphaPhoneMappingsList true phoneNumber
  else
    normalizeDigitsOnly phoneNumber

/-! ## `extract_country_code` (source lines 2449-2474)

The function byte-slices its input (`&national_number[0..i]` for
`i = 0..=MAX_LENGTH_COUNTRY_CODE` and `[i..]` on success), looks each
numeric candidate up in the calling-code index
(`get_region_code_for_country_code != "ZZ"`, passed in here as the
predicate `knownCode`), and returns the first hit.  Two models are
given: `extractCountryCode` works at character granularity, and
`extractCountryCodeChecked` models the Rust byte slicing exactly
(`splitBytes` fails - `none`, a panic - when a slice index is out of
bounds or not on a character boundary). -/

/-- Accumulator pass of the digit parse in `i32::from_str_radix`. -/
def digitsValAux : List Char → Nat → Option Nat
  | [], acc => some acc
  | c :: cs, acc =>
    if isAsciiDigitChar c then digitsValAux cs (acc * 10 + (c.toNat - 48)) else none

/-- `i32::from_str_radix(s, 10)`: an optional sign, then at least one
ASCII digit.  (Overflow cannot occur on the at-most-3-character slices
this is applied to, so it is not modelled.) -/
def fromStrRadix10 (s : List Char) : Option Int :=
  match s with
  | [] => none
  | c :: rest =>
    if c = '+' then
      match rest with
      | [] => none
      | _ => (digitsValAux rest 0).map (fun n => (n : Int))
    else if c = '-' then
      match rest with
      | [] => none
      | _ => (digitsValAux rest 0).map (fun n => -(n : Int))
    else (digitsValAux (c :: rest) 0).map (fun n => (n : Int))

/-- The numeric value of a list of ASCII digits (spec-side helper). -/
def digitsVal10 (l : List Char) : Int :=
  ((l.foldl (fun acc c => acc * 10 + (c.toNat - 48)) 0 : Nat) : Int)

/-- The `for i in 0..=MAX_LENGTH_COUNTRY_CODE` loop of
`extract_country_code`, iterating over the explicit index list. -/
def eccTry (knownCode : Int → Bool) (nationalNumber : List Char) :
    List Nat → Option (List Char × Int)
  | [] => none
  | i :: rest =>
    match fromStrRadix10 (nationalNumber.take i) with
    | none => eccTry knownCode nationalNumber rest
    | some potentialCountryCode =>
      if knownCode potentialCountryCode then
        some (nationalNumber.drop i, potentialCountryCode)
      else eccTry knownCode nationalNumber rest

/-- `extract_country_code`, character-granularity model. -/
def extractCountryCode (knownCode : Int → Bool) (nationalNumber : List Char) :
    Option (List Char × Int) :=
  if nationalNumber = [] ∨ nationalNumber.headD ' ' = '0' then none
  else eccTry knownCode nationalNumber (List.range (MAX_LENGTH_COUNTRY_CODE + 1))

/-- Split a character list after exactly `i` BYTES (UTF-8 sizes):
`none` models the Rust byte-slicing panic (index out of bounds or not on
a character boundary). -/
def splitBytes : List Char → Nat → Option (List Char × List Char)
  | l, 0 => some ([], l)
  | [], _ + 1 => none
  | c :: cs, n + 1 =>
    if c.utf8Size ≤ n + 1 then
      (splitBytes cs (n + 1 - c.utf8Size)).map (fun p => (c :: p.1, p.2))
    else none

/-- The loop of `extract_country_code` with the byte slicing modelled
exactly; the outer `none` is a panic. -/
def eccTryChecked (knownCode : Int → Bool) (nationalNumber : List Char) :
    List Nat → Option (Option (List Char × Int))
  | [] => some none
  | i :: rest =>
    match splitBytes nationalNumber i with
    | none => none
    | some (pre, suf) =>
      match fromStrRadix10 pre with
      | none => eccTryChecked knownCode nationalNumber rest
      | some potentialCountryCode =>
        if knownCode potentialCountryCode then some (some (suf, potentialCountryCode))
        else eccTryChecked knownCode nationalNumber rest

/-- `extract_country_code` with byte-level slicing; the outer `none` is a
panic. -/
def extractCountryCodeChecked (knownCode : Int → Bool) (nationalNumber : List Char) :
    Option (Option (List Char × Int)) :=
  if nationalNumber = [] ∨ nationalNumber.headD ' ' = '0' then some none
  else eccTryChecked knownCode nationalNumber (List.range (MAX_LENGTH_COUNTRY_CODE + 1))

/-- `extract_country_code` as the claim words it: reject empty or
leading-'0' input, else try the numeric value of the length-1, -2, -3
digit prefixes in ascending order and return the first that resolves to
a known region, with the remaining suffix; `none` when no length
resolves. -/
def specExtractCountryCode (knownCode : Int → Bool) (nationalNumber : List Char) :
    Option (List Char × Int) :=
  if nationalNumber = [] ∨ nationalNumber.headD ' ' = '0' then none
  else
    match [1, 2, 3].find? (fun i => knownCode (digitsVal10 (nationalNumber.take i))) with
    | some i => some (nationalNumber.drop i, digitsVal10 (nationalNumber.take i))
    | none => none

/-! ## `maybe_strip_national_prefix_and_carrier_code` (source lines 2481-2564)

Parameterized by the regex capabilities it consumes: a matcher for
`PhoneNumberDesc` patterns, `captures_start` of the compiled
`national_prefix_for_parsing` pattern, and `Regex::replace` of the first
match by the transform template.  Claim C5 is proved for every behaviour
of these capabilities. -/

/-- Result of `Regex::captures_start` (a match anchored at the input
start): `matchEnd` is the length of capture 0 (the matched span, as a
character count, which coincides with the Rust byte offset on the ASCII
data treated here); `cap1`/`cap2` are the first two capture groups,
present exactly when the group participated in the match (possibly
empty). -/
structure CapturesStart where
  matchEnd : Nat := 0
  cap1 : Option String := none
  cap2 : Option String := none
  deriving DecidableEq, Repr

/-- The `condition` closure of
`maybe_strip_national_prefix_and_carrier_code`:
`!transform_rule.is_empty() && (second_capture.is_some_and(|c| !c.is_empty())
|| (!first_capture.is_empty() && second_capture.is_none()))`. -/
def stripCondition (transformRule : String) (secondCapture : Option String)
    (firstCapture : String) : Bool :=
  decide (transformRule ≠ "") &&
    ((secondCapture.map (fun c => decide (c ≠ ""))).getD false ||
      (decide (firstCapture ≠ "") && secondCapture.isNone))

/-- `maybe_strip_national_prefix_and_carrier_code`: returns the (possibly
stripped or transformed) number and the captured carrier code.  The
`RegexResult` error case (pattern compile failure, a library-integrity
error unreachable from valid metadata) is not modelled: the compiled
pattern is part of the `npCaptures`/`npReplace` capabilities. -/
def maybeStripNationalPrefixAndCarrierCode
    (matcher : String → PhoneNumberDesc → Bool)
    (npCaptures : String → String → Option CapturesStart)
    (npReplace : String → String → String → String)
    (metadata : PhoneMetadata) (phoneNumber : String) : String × Option String :=
  let possibleNationalPrefix := metadata.nationalPrefixForParsing
  if phoneNumber = "" ∨ possibleNationalPrefix = "" then
    -- Early return for numbers of zero length or with no national prefix.
    (phoneNumber, none)
  else
    let generalDesc := metadata.generalDesc
    -- Check if the original number is viable.
    let isViableOriginalNumber := matcher phoneNumber generalDesc
    let transformRule := metadata.nationalPrefixTransformRule
    match npCaptures possibleNationalPrefix phoneNumber with
    | none =>
      -- The first digits did not match the national prefix.
      (phoneNumber, none)
    | some captures =>
      let firstCapture := captures.cap1
      let secondCapture := captures.cap2
      -- The `else if let Some(matched) = captures.get(0)` branch: capture 0
      -- always exists once `captures` is `Some`, so it runs whenever the
      -- transform branch does not.
      let caseB : String × Option String :=
        let strippedNumber := phoneNumber.drop captures.matchEnd
        if isViableOriginalNumber = true ∧ matcher strippedNumber generalDesc = false then
          (phoneNumber, none)
        else (strippedNumber, firstCapture)
      match firstCapture with
      | some fc =>
        if stripCondition transformRule secondCapture fc then
          let carrierCodeTemp := if secondCapture.isSome then some fc else none
          let replacedNumber := npReplace possibleNationalPrefix phoneNumber transformRule
          if isViableOriginalNumber = true ∧ matcher replacedNumber generalDesc = false then
            (phoneNumber, none)
          else (replacedNumber, carrierCodeTemp)
        else caseB
      | none => caseB

/-- The candidate the stripper would commit: the transformed number in
the transform-rule branch, the prefix-stripped number otherwise; `none`
when an early return fires or no anchored prefix match exists.  (Shares
`stripCondition` with the function above so the branch selection is
identical.) -/
def strippingCandidate
    (npCaptures : String → String → Option CapturesStart)
    (npReplace : String → String → String → String)
    (metadata : PhoneMetadata) (phoneNumber : String) : Option String :=
  let possibleNationalPrefix := metadata.nationalPrefixForParsing
  if phoneNumber = "" ∨ possibleNationalPrefix = "" then none
  else
    let transformRule := metadata.nationalPrefixTransformRule
    match npCaptures possibleNationalPrefix phoneNumber with
    | none => none
    | some captures =>
      match captures.cap1 with
      | some fc =>
        if stripCondition transformRule captures.cap2 fc then
          some (npReplace possibleNationalPrefix phoneNumber transformRule)
        else some (phoneNumber.drop captures.matchEnd)
      | none => some (phoneNumber.drop captures.matchEnd)

/-! ## A derivative-based regular-expression evaluator

Modelled from the external `regex` crate (declared an out-of-scope
capability by the spec): the pattern strings that the translated code
compiles are transcribed below into the `RE` syntax, and matching is
decided by Brzozowski derivatives.  Only match existence is computed;
where a capability needs capture contents the instantiation documents
how the capture is modelled. -/

inductive RE where
  | emp : RE
  | eps : RE
  | cls (p : Char → Bool) : RE
  | cat (a b : RE) : RE
  | alt (a b : RE) : RE
  | star (a : RE) : RE

/-- Does the expression accept the empty string? -/
def RE.nullable : RE → Bool
  | .emp => false
  | .eps => true
  | .cls _ => false
  | .cat a b => a.nullable && b.nullable
  | .alt a b => a.nullable || b.nullable
  | .star _ => true

def RE.isEmp : RE → Bool
  | .emp => true
  | _ => false

def RE.isEps : RE → Bool
  | .eps => true
  | _ => false

/-- Concatenation with `emp`/`eps` simplification (keeps derivatives
small). -/
def mkCat (a b : RE) : RE :=
  if a.isEmp || b.isEmp then .emp
  else if a.isEps then b
  else if b.isEps then a
  else .cat a b

/-- Alternation with `emp` simplification. -/
def mkAlt (a b : RE) : RE :=
  if a.isEmp then b
  else if b.isEmp then a
  else .alt a b

/-- Brzozowski derivative with respect to one character. -/
def RE.deriv : RE → Char → RE
  | .emp, _ => .emp
  | .eps, _ => .emp
  | .cls p, c => if p c then .eps else .emp
  | .cat a b, c =>
    if a.nullable then mkAlt (mkCat (a.deriv c) b) (b.deriv c)
    else mkCat (a.deriv c) b
  | .alt a b, c => mkAlt (a.deriv c) (b.deriv c)
  | .star a, c => mkCat (a.deriv c) (.star a)

/-- Whole-list (anchored both ends) match. -/
def REmatchList (r : RE) (l : List Char) : Bool := (l.foldl RE.deriv r).nullable

/-- Is there a match covering some suffix of the list (a `…$`-anchored
search)? -/
def REmatchSomeSuffix (r : RE) : List Char → Bool
  | [] => r.nullable
  | l@(_ :: cs) => REmatchList r l || REmatchSomeSuffix r cs

/-- Is there a match starting at the head of the list (a `looking-at`)? -/
def REmatchesStart (r : RE) : List Char → Bool
  | [] => r.nullable
  | c :: cs => r.nullable || REmatchesStart (r.deriv c) cs

/-- Is there a match anywhere in the list? -/
def REmatchSomewhere (r : RE) : List Char → Bool
  | [] => r.nullable
  | l@(_ :: cs) => REmatchesStart r l || REmatchSomewhere r cs

/-- Single-character literal. -/
def REchar (c : Char) : RE := .cls (fun x => x = c)

/-- String literal. -/
def REstr (s : String) : RE := s.data.foldr (fun c r => RE.cat (REchar c) r) .eps

/-- `r?` -/
def REopt (a : RE) : RE := .alt a .eps

/-- `r` repeated exactly `n` times. -/
def RErep (a : RE) : Nat → RE
  | 0 => .eps
  | n + 1 => .cat a (RErep a n)

/-- `r` repeated `n` or more times. -/
def RErepAtLeast (a : RE) (n : Nat) : RE := .cat (RErep a n) (.star a)

/-- Up to `n` further optional copies of `r` (helper for bounded
repetition). -/
def REoptChain (a : RE) : Nat → RE
  | 0 => .eps
  | n + 1 => REopt (.cat a (REoptChain a n))

/-- Bounded repetition: at least `lo` copies, at most `lo + extra`. -/
def RErepRange (a : RE) (lo extra : Nat) : RE := .cat (RErep a lo) (REoptChain a extra)

/-- The `\p{Nd}` class, sharing the decimal-digit model of
`decDigitValue`. -/
def REnd : RE := .cls (fun c => (decDigitValue c).isSome)

/-! ## The engine context (`PhoneNumberUtil`'s maps) and regex capabilities -/

/-- The lookup state that `PhoneNumberUtil` builds from the metadata
collection (`new_for_metadata`): association lists model the hash maps
and the sorted calling-code vector (binary search over the sorted vector
is lookup). -/
structure UtilContext where
  countryCallingCodeToRegionCodeMap : List (Int × List String) := []
  regionToMetadataMap : List (String × PhoneMetadata) := []
  countryCodeToNonGeographicalMetadataMap : List (Int × PhoneMetadata) := []

/-- `get_region_codes_for_country_calling_code`. -/
def getRegionCodesForCountryCallingCode (ctx : UtilContext) (countryCallingCode : Int) :
    Option (List String) :=
  ctx.countryCallingCodeToRegionCodeMap.lookup countryCallingCode

/-- `get_region_code_for_country_code`: the first region for the calling
code, or `"ZZ"`. -/
def getRegionCodeForCountryCode (ctx : UtilContext) (countryCallingCode : Int) : String :=
  (((getRegionCodesForCountryCallingCode ctx countryCallingCode).bind List.head?)).getD
    regionCodeUnknown

/-- `get_metadata_for_region`. -/
def getMetadataForRegion (ctx : UtilContext) (regionCode : String) : Option PhoneMetadata :=
  ctx.regionToMetadataMap.lookup regionCode

/-- `get_metadata_for_region_or_calling_code`. -/
def getMetadataForRegionOrCallingCode (ctx : UtilContext) (countryCallingCode : Int)
    (regionCode : String) : Option PhoneMetadata :=
  if REGION_CODE_FOR_NON_GEO_ENTITY = regionCode then
    ctx.countryCodeToNonGeographicalMetadataMap.lookup countryCallingCode
  else getMetadataForRegion ctx regionCode

/-- Result of `extn_pattern.captures`: character index where capture 0
starts, and the first non-empty digit group (groups 1..6) when one
participated. -/
structure ExtnCap where
  start : Nat := 0
  ext : Option String := none
  deriving DecidableEq, Repr

/-- The regex capabilities consumed by the parser and formatter,
mirroring the compiled patterns of `PhoneNumberRegExpsAndMappings` and
the per-metadata patterns fetched from the `RegexCache`.  String
positions are character counts (equal to the Rust byte offsets on the
ASCII data these are applied to). -/
structure RegexOps where
  /-- `valid_start_char_pattern.full_match` on a single character. -/
  validStartChar : Char → Bool
  /-- `unwanted_end_char_pattern.full_match` on a single character. -/
  unwantedEndChar : Char → Bool
  /-- group 1 of `capture_up_to_second_number_start_pattern.captures`. -/
  captureUpToSecondNumberStart : String → Option String
  /-- `rfc3966_global_number_digits_pattern.full_match`. -/
  rfc3966GlobalNumberDigitsFullMatch : String → Bool
  /-- `rfc3966_domainname_pattern.full_match`. -/
  rfc3966DomainnameFullMatch : String → Bool
  /-- `valid_phone_number_pattern.full_match`. -/
  validPhoneNumberFullMatch : String → Bool
  /-- `extn_pattern.captures` (see `ExtnCap`). -/
  extnCap : String → Option ExtnCap
  /-- `find_start` of a compiled IDD pattern: pattern, input, match end. -/
  iddFindStart : String → String → Option Nat
  /-- `Regex::full_match` of a compiled metadata pattern: pattern, input. -/
  descFullMatch : String → String → Bool
  /-- `captures_start` of the compiled national-prefix-for-parsing
  pattern. -/
  npCaptures : String → String → Option CapturesStart
  /-- `Regex::replace` of the first match by the transform template. -/
  npReplace : String → String → String → String
  /-- `matches_start` of a compiled leading-digits pattern. -/
  leadingDigitsMatchStart : String → String → Bool
  /-- `Regex::replace_all` of a compiled format pattern by a template. -/
  replaceAll : String → String → String → String

/-! ## String utilities and small pure helpers -/

/-- `PLUS_CHARS` membership: `'+'` or fullwidth `'＋'`. -/
def isPlusChar (c : Char) : Bool := c = '+' || c = '＋'

/-- `plus_chars_pattern` (`[+＋]+`) `find_start`: the end of the maximal
leading plus run, when the string starts with a plus character. -/
def plusCharsFindStartEnd (s : String) : Option Nat :=
  match s.data with
  | [] => none
  | c :: _ => if isPlusChar c then some (s.data.takeWhile isPlusChar).length else none

/-- `plus_chars_pattern.matches_start`. -/
def plusCharsMatchStart (s : String) : Bool := (plusCharsFindStartEnd s).isSome

/-- Rust `str::find` of a literal pattern (first index, in characters). -/
def findSubstrIdxAux (pat : List Char) : List Char → Nat → Option Nat
  | [], i => if pat = [] then some i else none
  | l@(_ :: cs), i => if pat.isPrefixOf l then some i else findSubstrIdxAux pat cs (i + 1)

/-- Rust `str::find(pattern)`. -/
def findSubstrIdx (s pat : String) : Option Nat := findSubstrIdxAux pat.data s.data 0

/-- Rust `str::starts_with` (character-level). -/
def strStartsWith (s t : String) : Bool := t.data.isPrefixOf s.data

/-- `strip_cow_prefix` from `string_util.rs`. -/
def stripCowPrefixStr (s pre : String) : Option String :=
  if strStartsWith s pre then some (s.drop pre.length) else none

/-- `itoa` rendering of an `i32` (decimal). -/
def intToString (i : Int) : String := toString i

/-- `u64::from_str_radix(s, 10)`: an optional `'+'` sign then at least
one ASCII digit (overflow is unreachable: the parser bounds the length
by 17 first). -/
def u64FromStrRadix (s : String) : Option Nat :=
  match s.data with
  | [] => none
  | c :: rest =>
    if c = '+' then
      match rest with
      | [] => none
      | _ => digitsValAux rest 0
    else digitsValAux (c :: rest) 0

/-! ## The parser pipeline (from `phonenumberutil.rs`) -/

/-- Decidable equality for `Except` values, used to branch on fallible
results the way the source matches on `Result`. -/
instance instDecidableEqExcept {ε α : Type} [DecidableEq ε] [DecidableEq α] :
    DecidableEq (Except ε α)
  | .error a, .error b =>
    if h : a = b then .isTrue (by rw [h])
    else .isFalse (by intro hc; injection hc; exact h (by assumption))
  | .error _, .ok _ => .isFalse (by intro hc; exact Except.noConfusion hc)
  | .ok _, .error _ => .isFalse (by intro hc; exact Except.noConfusion hc)
  | .ok a, .ok b =>
    if h : a = b then .isTrue (by rw [h])
    else .isFalse (by intro hc; injection hc; exact h (by assumption))

/-- `RFC3966_PHONE_CONTEXT` -/
def RFC3966_PHONE_CONTEXT : String := ";phone-context="

/-- `RFC3966_PREFIX` (the `"tel:"` scheme marker). -/
def RFC3966_TEL : String := "tel:"

/-- `RFC3966_ISDN_SUBADDRESS` -/
def RFC3966_ISDN_SUBADDR : String := ";isub="

/-- `PLUS_SIGN` -/
def PLUS_SIGN : String := "+"

/-- `RFC3966_EXTN_PREFIX` -/
def RFC3966_EXTN_MARKER : String := ";ext="

/-- `DEFAULT_EXTN_PREFIX` -/
def DEFAULT_EXTN_MARKER : String := " ext. "

/-- `PhoneNumberWithCountryCodeSource` from `helper_types.rs`. -/
structure PhoneNumberWithCountryCodeSource where
  phoneNumber : String
  countryCodeSource : CountryCodeSource
  deriving Repr

/-- `is_phone_context_valid` (source lines 1481-1496). -/
def isPhoneContextValid (ops : RegexOps) (phoneContext : String) : Bool :=
  if phoneContext = "" then false
  else
    ops.rfc3966GlobalNumberDigitsFullMatch phoneContext ||
      ops.rfc3966DomainnameFullMatch phoneContext

/-- `extract_phone_context` (source lines 1564-1582). -/
def extractPhoneContext (numberToExtractFrom : String) (indexOfPhoneContext : Nat) : String :=
  let phoneContextStart := indexOfPhoneContext + RFC3966_PHONE_CONTEXT.length
  if numberToExtractFrom.length ≤ phoneContextStart then ""
  else
    let rest := numberToExtractFrom.drop phoneContextStart
    match findSubstrIdx rest ";" with
    | some phoneContextEnd => rest.take phoneContextEnd
    | none => rest

/-- `trim_unwanted_end_chars` (source lines 219-239): drop the maximal
trailing run of unwanted characters. -/
def trimUnwantedEndChars (ops : RegexOps) (phoneNumber : String) : String :=
  String.mk (((phoneNumber.data.reverse).dropWhile ops.unwantedEndChar).reverse)

/-- `extract_possible_number` (source lines 1594-1631). -/
def extractPossibleNumber (ops : RegexOps) (phoneNumber : String) :
    Except NotANumberError String :=
  let rest := phoneNumber.data.dropWhile (fun c => !(ops.validStartChar c))
  if rest.isEmpty then .error .NoValidStartCharacter
  else
    let extractedNumber := trimUnwantedEndChars ops (String.mk rest)
    if extractedNumber.length = 0 then .error .NotANumber
    else
      -- Now remove any extra numbers at the end.
      match ops.captureUpToSecondNumberStart extractedNumber with
      | some grp => .ok grp
      | none => .ok extractedNumber

/-- `build_national_number_for_parsing` (source lines 1501-1556). -/
def buildNationalNumberForParsing (ops : RegexOps) (numberToParse : String) :
    Except ParseError String :=
  let built : Except ParseError String :=
    match findSubstrIdx numberToParse RFC3966_PHONE_CONTEXT with
    | some indexOfPhoneContext =>
      let phoneContext := extractPhoneContext numberToParse indexOfPhoneContext
      if ¬ (isPhoneContextValid ops phoneContext = true) then
        .error (.NotANumber .InvalidPhoneContext)
      else
        -- If the phone context holds a number (starts with '+'), capture it;
        -- domains are ignored.
        let contextPart := if strStartsWith phoneContext PLUS_SIGN then phoneContext else ""
        -- Append everything between the "tel:" marker (or the start) and the
        -- phone-context parameter.
        let indexOfNationalNumber :=
          match findSubstrIdx numberToParse RFC3966_TEL with
          | some indexOfRfc => indexOfRfc + RFC3966_TEL.length
          | none => 0
        .ok (contextPart ++
          ((numberToParse.drop indexOfNationalNumber).take
            (indexOfPhoneContext - indexOfNationalNumber)))
    | none =>
      match extractPossibleNumber ops numberToParse with
      | .error e => .error (.NotANumber e)
      | .ok s => .ok s
  match built with
  | .error e => .error e
  | .ok nationalNumber =>
    -- Delete the isdn-subaddress and everything after it if present.
    match findSubstrIdx nationalNumber RFC3966_ISDN_SUBADDR with
    | some indexOfIsdn => .ok (nationalNumber.take indexOfIsdn)
    | none => .ok nationalNumber

/-- `is_viable_phone_number` (source lines 1881-1889). -/
def isViablePhoneNumber (ops : RegexOps) (phoneNumber : String) : Bool :=
  if phoneNumber.length < MIN_LENGTH_FOR_NSN then false
  else ops.validPhoneNumberFullMatch phoneNumber

/-- `check_region_for_parsing` (source lines 1895-1902). -/
def checkRegionForParsing (ctx : UtilContext) (numberToParse : String)
    (defaultRegion : String) : Bool :=
  (getMetadataForRegion ctx defaultRegion).isSome || numberToParse = "" ||
    plusCharsMatchStart numberToParse

/-- `maybe_strip_extension` (source lines 1907-1928). -/
def maybeStripExtension (ops : RegexOps) (phoneNumber : String) : String × Option String :=
  match ops.extnCap phoneNumber with
  | none => (phoneNumber, none)
  | some cap =>
    let phoneNumberNoExtn := phoneNumber.take cap.start
    -- Only treat it as an extension when the preceding part is viable.
    if ¬ (isViablePhoneNumber ops phoneNumberNoExtn = true) then (phoneNumber, none)
    else
      match cap.ext with
      | some ext => (phoneNumberNoExtn, some ext)
      | none => (phoneNumber, none)

/-- `parse_prefix_as_idd` (source lines 2302-2325). -/
def parsePrefixAsIdd (ops : RegexOps) (iddPat : String) (phoneNumber : String) :
    Option String :=
  match ops.iddFindStart iddPat phoneNumber with
  | none => none
  | some capturedRangeEnd =>
    let rest := phoneNumber.drop capturedRangeEnd
    -- Only strip when the first digit after the match is not 0.
    if ((rest.data.find? (fun c => (decDigitValue c).isSome)).bind decDigitValue) = some 0 then
      none
    else some rest

/-- `maybe_strip_international_prefix_and_normalize` (source lines
2234-2274). -/
def maybeStripInternationalPrefixAndNormalize (ops : RegexOps) (phoneNumber : String)
    (possibleIddPat : String) : PhoneNumberWithCountryCodeSource :=
  if phoneNumber = "" then
    ⟨phoneNumber, .FROM_DEFAULT_COUNTRY⟩
  else
    match plusCharsFindStartEnd phoneNumber with
    | some plusEnd => ⟨normalize (phoneNumber.drop plusEnd), .FROM_NUMBER_WITH_PLUS_SIGN⟩
    | none =>
      let normalizedNumber := normalize phoneNumber
      match parsePrefixAsIdd ops possibleIddPat normalizedNumber with
      | some stripped => ⟨stripped, .FROM_NUMBER_WITH_IDD⟩
      | none => ⟨normalizedNumber, .FROM_DEFAULT_COUNTRY⟩

/-- `RegexBasedMatcher::match_national_number` (full-match mode,
`regex_based_matcher.rs`): an empty pattern never matches. -/
def matchNationalNumber (ops : RegexOps) (number : String) (numberDesc : PhoneNumberDesc) :
    Bool :=
  if numberDesc.nationalNumberPattern = "" then false
  else ops.descFullMatch numberDesc.nationalNumberPattern number

/-- The region-resolution predicate `extract_country_code` consults:
`get_region_code_for_country_code(code) != RegionCode::get_unknown()`. -/
def knownCodePred (ctx : UtilContext) : Int → Bool :=
  fun code => decide (getRegionCodeForCountryCode ctx code ≠ regionCodeUnknown)

/-- `extract_country_code` on `String` (wrapper around the char-level
model). -/
def extractCountryCodeStr (ctx : UtilContext) (nationalNumber : String) :
    Option (String × Int) :=
  (extractCountryCode (knownCodePred ctx) nationalNumber.data).map
    (fun p => (String.mk p.1, p.2))

/-- `maybe_extract_country_code` (source lines 1950-2053).  The returned
`PhoneNumber` is the final state of the `&mut` argument (the source also
mutates it on the error paths, via `set_country_code_source`). -/
def maybeExtractCountryCode (ctx : UtilContext) (ops : RegexOps)
    (defaultRegionMetadata : Option PhoneMetadata) (keepRawInput : Bool)
    (nationalNumber : String) (phoneNumber : PhoneNumber) :
    PhoneNumber × Except ParseError String :=
  let possibleCountryIddPat :=
    match defaultRegionMetadata with
    | some m => m.internationalPrefix
    | none => "NonMatch"
  let sr := maybeStripInternationalPrefixAndNormalize ops nationalNumber possibleCountryIddPat
  let nationalNumber := sr.phoneNumber
  let phoneNumber :=
    if keepRawInput then { phoneNumber with countryCodeSource := some sr.countryCodeSource }
    else phoneNumber
  if sr.countryCodeSource ≠ .FROM_DEFAULT_COUNTRY then
    if nationalNumber.length ≤ MIN_LENGTH_FOR_NSN then
      (phoneNumber, .error .TooShortAfterIdd)
    else
      match extractCountryCodeStr ctx nationalNumber with
      | none => (phoneNumber, .error .InvalidCountryCode)
      | some (rest, potentialCountryCode) =>
        ({ phoneNumber with countryCode := some potentialCountryCode }, .ok rest)
  else
    match defaultRegionMetadata with
    | some m =>
      -- Check if the number starts with the default region's calling code.
      let defaultCountryCode := m.countryCode
      match stripCowPrefixStr nationalNumber (intToString defaultCountryCode) with
      | some potentialNationalNumber =>
        let generalNumDesc := m.generalDesc
        -- The port computes (and only traces) the stripped form; the
        -- comparison below uses the unstripped `potential_national_number`.
        let _ := maybeStripNationalPrefixAndCarrierCode (matchNationalNumber ops)
          ops.npCaptures ops.npReplace m potentialNationalNumber
        if (matchNationalNumber ops nationalNumber generalNumDesc = false ∧
            matchNationalNumber ops potentialNationalNumber generalNumDesc = true) ∨
            testNumberLengthWithUnknownType nationalNumber m = .error .TooLong then
          let phoneNumber :=
            if keepRawInput then
              { phoneNumber with countryCodeSource := some .FROM_NUMBER_WITHOUT_PLUS_SIGN }
            else phoneNumber
          ({ phoneNumber with countryCode := some defaultCountryCode },
            .ok potentialNationalNumber)
        else ({ phoneNumber with countryCode := some 0 }, .ok nationalNumber)
      | none => ({ phoneNumber with countryCode := some 0 }, .ok nationalNumber)
    | none => ({ phoneNumber with countryCode := some 0 }, .ok nationalNumber)

/-- `get_italian_leading_zeros_for_phone_number` (source lines
2568-2583). -/
def getItalianLeadingZerosForPhoneNumber (nationalNumber : String) : Option Nat :=
  if nationalNumber.length < 2 then none
  else
    let zeroCount := (nationalNumber.data.takeWhile (fun c => c = '0')).length
    if zeroCount = 0 then none
    -- If the number is all zeros, the last zero is not a leading zero.
    else if zeroCount = nationalNumber.length then some (zeroCount - 1)
    else some zeroCount

/-- The final stage of `parse_helper` (source lines 1843-1872): NSN
length bounds, leading-zero detection, and the `u64` parse. -/
def parseFinalize (normalizedNationalNumber : String) (countryCode : Int)
    (tempNumber : PhoneNumber) : Except ParseError PhoneNumber :=
  if normalizedNationalNumber.length < MIN_LENGTH_FOR_NSN then .error .TooShortNsn
  else if normalizedNationalNumber.length > MAX_LENGTH_FOR_NSN then .error .TooLongNsn
  else
    let tempNumber := { tempNumber with countryCode := some countryCode }
    let tempNumber :=
      match getItalianLeadingZerosForPhoneNumber normalizedNationalNumber with
      | some zeroesCount =>
        let t := { tempNumber with italianLeadingZero := some true }
        if zeroesCount > 1 then { t with numberOfLeadingZeros := some (zeroesCount : Int) }
        else t
      | none => tempNumber
    match u64FromStrRadix normalizedNationalNumber with
    | some numberAsInt => .ok { tempNumber with nationalNumber := some numberAsInt }
    | none => .error (.NotANumber .FailedToParseNumberAsInt)

/-- `parse_helper` (source lines 1726-1873). -/
def parseHelper (ctx : UtilContext) (ops : RegexOps) (numberToParse : String)
    (defaultRegion : String) (keepRawInput checkRegion : Bool) :
    Except ParseError PhoneNumber :=
  match buildNationalNumberForParsing ops numberToParse with
  | .error e => .error e
  | .ok nationalNumberRaw =>
    if ¬ (isViablePhoneNumber ops nationalNumberRaw = true) then
      .error (.NotANumber .NotMatchedValidNumberPattern)
    else if checkRegion = true ∧
        ¬ (checkRegionForParsing ctx nationalNumberRaw defaultRegion = true) then
      .error .InvalidCountryCode
    else
      let tempNumber : PhoneNumber :=
        if keepRawInput then { rawInput := some numberToParse } else {}
      -- Parse the extension first (no country-specific data needed).
      let stripped := maybeStripExtension ops nationalNumberRaw
      let nationalNumber := stripped.1
      let tempNumber :=
        match stripped.2 with
        | some ext => { tempNumber with extension := some ext }
        | none => tempNumber
      let countryMetadata := getMetadataForRegion ctx defaultRegion
      let firstAttempt :=
        maybeExtractCountryCode ctx ops countryMetadata keepRawInput nationalNumber tempNumber
      -- On InvalidCountryCode, strip a leading plus run and retry once.
      let afterCc : PhoneNumber × Except ParseError String :=
        match firstAttempt.2 with
        | .ok r => (firstAttempt.1, .ok r)
        | .error e =>
          if ¬ (e = ParseError.InvalidCountryCode) then (firstAttempt.1, .error e)
          else
            match plusCharsFindStartEnd nationalNumber with
            | some plusEnd =>
              let retry := maybeExtractCountryCode ctx ops countryMetadata keepRawInput
                (nationalNumber.drop plusEnd) firstAttempt.1
              match retry.2 with
              | .error e2 => (retry.1, .error e2)
              | .ok r2 =>
                if retry.1.countryCodeGet = 0 then (retry.1, .error .InvalidCountryCode)
                else (retry.1, .ok r2)
            | none => (firstAttempt.1, .error e)
      match afterCc.2 with
      | .error e => .error e
      | .ok normalizedNationalNumber0 =>
        let tempNumber := afterCc.1
        let countryCode0 := tempNumber.countryCodeGet
        let cmAndCc :=
          if countryCode0 ≠ 0 then
            let phoneNumberRegion := getRegionCodeForCountryCode ctx countryCode0
            if phoneNumberRegion ≠ defaultRegion then
              (getMetadataForRegionOrCallingCode ctx countryCode0 phoneNumberRegion,
                countryCode0)
            else (countryMetadata, countryCode0)
          else
            match countryMetadata with
            | some m => (countryMetadata, m.countryCode)
            | none => (countryMetadata, countryCode0)
        if normalizedNationalNumber0.length < MIN_LENGTH_FOR_NSN then .error .TooShortNsn
        else
          let nnAndTemp :=
            match cmAndCc.1 with
            | some m =>
              let strip := maybeStripNationalPrefixAndCarrierCode (matchNationalNumber ops)
                ops.npCaptures ops.npReplace m normalizedNationalNumber0
              let potentialNationalNumber := strip.1
              -- Commit the stripping only when the remaining NSN is a possible
              -- length for the region (not too short / invalid).
              let validationResult := testNumberLengthWithUnknownType
                potentialNationalNumber m
              if ¬ (validationResult = Except.ok NumberLengthType.IsPossibleLocalOnly) ∧
                  ¬ (validationResult = Except.error ValidationError.TooShort ∨
                     validationResult = Except.error ValidationError.InvalidLength) then
                (potentialNationalNumber,
                  match strip.2 with
                  | some carrierCode =>
                    if keepRawInput then
                      { tempNumber with preferredDomesticCarrierCode := some carrierCode }
                    else tempNumber
                  | none => tempNumber)
              else (normalizedNationalNumber0, tempNumber)
            | none => (normalizedNationalNumber0, tempNumber)
          parseFinalize nnAndTemp.1 cmAndCc.2 nnAndTemp.2

/-- `parse` (source lines 1298-1300). -/
def parse (ctx : UtilContext) (ops : RegexOps) (numberToParse defaultRegion : String) :
    Except ParseError PhoneNumber :=
  parseHelper ctx ops numberToParse defaultRegion false true

/-! ## The formatter (from `phonenumberutil.rs`) -/

/-- `get_national_significant_number` (source lines 334-349). -/
def getNationalSignificantNumber (phoneNumber : PhoneNumber) : String :=
  let zerosStart :=
    if phoneNumber.italianLeadingZeroGet then
      String.mk (List.replicate phoneNumber.numberOfLeadingZerosGet.toNat '0')
    else ""
  zerosStart ++ Nat.repr phoneNumber.nationalNumberGet

/-- `prefix_number_with_country_calling_code` from `helper_functions.rs`. -/
def prefixNumberWithCountryCallingCode (countryCallingCode : Int)
    (numberFormat : PhoneNumberFormat) (formattedNumber : String) : String :=
  match numberFormat with
  | .E164 => PLUS_SIGN ++ intToString countryCallingCode ++ formattedNumber
  | .International => PLUS_SIGN ++ intToString countryCallingCode ++ " " ++ formattedNumber
  | .RFC3966 =>
    RFC3966_TEL ++ PLUS_SIGN ++ intToString countryCallingCode ++ "-" ++ formattedNumber
  | .National => formattedNumber

/-- `choose_formatting_pattern_for_number` (source lines 433-461): first
format whose (last) leading-digits pattern accepts the start and whose
pattern matches the whole number. -/
def chooseFormattingPatternForNumber (ops : RegexOps) :
    List NumberFormat → String → Option NumberFormat
  | [], _ => none
  | fmt :: rest, nationalNumber =>
    let leadingOk :=
      match fmt.leadingDigitsPattern.getLast? with
      | some last => ops.leadingDigitsMatchStart last nationalNumber
      | none => true
    if leadingOk = false then chooseFormattingPatternForNumber ops rest nationalNumber
    else if ops.descFullMatch fmt.pattern nationalNumber then some fmt
    else chooseFormattingPatternForNumber ops rest nationalNumber

/-- Replace the first occurrence of a literal (the `$CC`
carrier-code marker) in a string. -/
def replaceFirstSubstr (s pat repl : String) : String :=
  match findSubstrIdx s pat with
  | some i => s.take i ++ repl ++ s.drop (i + pat.length)
  | none => s

/-- Expansion of a `Regex::replace` replacement text: `$1` expands to the
text matched by group 1 (the only group reference occurring in the
metadata formatting rules). -/
def expandGroupRef : List Char → String → String
  | [], _ => ""
  | '$' :: '1' :: rest, matched => matched ++ expandGroupRef rest matched
  | c :: rest, matched => String.singleton c ++ expandGroupRef rest matched

/-- `first_group_capturing_pattern` (`(\$\d)`) `Regex::replace`: replace
the first `$<digit>` of the format rule by the replacement text, whose
own `$1` refers back to the matched `$<digit>`. -/
def replaceFirstGroupCapturing : List Char → String → String
  | [], _ => ""
  | c :: rest, repl =>
    match c, rest with
    | '$', d :: rest2 =>
      if isAsciiDigitChar d then
        expandGroupRef repl.data (String.mk ['$', d]) ++ String.mk rest2
      else String.singleton '$' ++ replaceFirstGroupCapturing rest repl
    | _, _ => String.singleton c ++ replaceFirstGroupCapturing rest repl

/-- `format_nsn_using_pattern_with_carrier` (source lines 465-547),
restricted to the separator-free RFC3966 post-processing being the
identity on inputs with no leading separator (the scenario's formats are
E164 and International, which skip that branch entirely). -/
def formatNsnUsingPatternWithCarrier (ops : RegexOps) (nationalNumber : String)
    (formattingPattern : NumberFormat) (numberFormat : PhoneNumberFormat)
    (carrierCode : String) : String :=
  let numberFormatRule :=
    if numberFormat = .National ∧ carrierCode.length > 0 ∧
        formattingPattern.domesticCarrierCodeFormattingRule.length > 0 then
      let carrierCodeFormattingRule :=
        replaceFirstSubstr formattingPattern.domesticCarrierCodeFormattingRule
          "$CC" carrierCode
      replaceFirstGroupCapturing formattingPattern.format.data carrierCodeFormattingRule
    else if numberFormat = .National ∧
        formattingPattern.nationalPrefixFormattingRule.length > 0 then
      replaceFirstGroupCapturing formattingPattern.format.data
        formattingPattern.nationalPrefixFormattingRule
    else formattingPattern.format
  ops.replaceAll formattingPattern.pattern nationalNumber numberFormatRule

/-- `format_nsn_with_carrier` (source lines 403-431). -/
def formatNsnWithCarrier (ops : RegexOps) (number : String) (metadata : PhoneMetadata)
    (numberFormat : PhoneNumberFormat) (carrierCode : String) : String :=
  let availableFormats :=
    if metadata.intlNumberFormat.length = 0 ∨ numberFormat = .National then
      metadata.numberFormat
    else metadata.intlNumberFormat
  match chooseFormattingPatternForNumber ops availableFormats number with
  | some formattingPattern =>
    formatNsnUsingPatternWithCarrier ops number formattingPattern numberFormat carrierCode
  | none => number

/-- `format_nsn` (source lines 394-401). -/
def formatNsn (ops : RegexOps) (number : String) (metadata : PhoneMetadata)
    (numberFormat : PhoneNumberFormat) : String :=
  formatNsnWithCarrier ops number metadata numberFormat ""

/-- `get_formatted_extension` (source lines 567-584). -/
def getFormattedExtension (phoneNumber : PhoneNumber) (metadata : PhoneMetadata)
    (numberFormat : PhoneNumberFormat) : Option String :=
  if ¬ (phoneNumber.hasExtension = true) ∨ phoneNumber.extensionGet = "" then none
  else
    let pre :=
      if numberFormat = .RFC3966 then RFC3966_EXTN_MARKER
      else if metadata.hasPreferredExtnPrefix then metadata.preferredExtnPrefix
      else DEFAULT_EXTN_MARKER
    some (pre ++ phoneNumber.extensionGet)

/-- `format` (source lines 279-332). -/
def format (ctx : UtilContext) (ops : RegexOps) (phoneNumber : PhoneNumber)
    (numberFormat : PhoneNumberFormat) : String :=
  if phoneNumber.nationalNumberGet = 0 ∧ phoneNumber.rawInputGet ≠ "" then
    phoneNumber.rawInputGet
  else
    let countryCallingCode := phoneNumber.countryCodeGet
    let formattedNumber := getNationalSignificantNumber phoneNumber
    if numberFormat = .E164 then
      prefixNumberWithCountryCallingCode countryCallingCode .E164 formattedNumber
    else
      let regionCode := getRegionCodeForCountryCode ctx countryCallingCode
      match getMetadataForRegionOrCallingCode ctx countryCallingCode regionCode with
      | some metadata =>
        let formattedNumber := formatNsn ops formattedNumber metadata numberFormat
        let formattedNumber :=
          match getFormattedExtension phoneNumber metadata numberFormat with
          | some formattedExtension => formattedNumber ++ formattedExtension
          | none => formattedNumber
        prefixNumberWithCountryCallingCode countryCallingCode numberFormat formattedNumber
      | none => formattedNumber

/-! ## Concrete pattern transcriptions

The pattern strings below are transcribed character-class by
character-class from `helper_constants.rs` /
`phone_number_regexps_and_mappings.rs` / `helper_functions.rs` into the
derivative engine.  Unicode restrictions of the model: `\p{Nd}` is the
table behind `decDigitValue`; the `(?i)` flag is modelled as ASCII case
folding (the scenario inputs contain no letters, so non-ASCII folding is
never exercised). -/

/-- The `VALID_PUNCTUATION` character set from `helper_constants.rs`
(dashes, white space, full stops, slashes, brackets, parentheses, tildes
and the placeholder letter `x`). -/
def isValidPunct (c : Char) : Bool :=
  let n := c.toNat
  c = '-' || c = 'x' || (0x2010 ≤ n && n ≤ 0x2015) || n = 0x2212 || n = 0x30FC ||
    (0xFF0D ≤ n && n ≤ 0xFF0F) || c = ' ' || n = 0xA0 || n = 0xAD || n = 0x200B ||
    n = 0x2060 || n = 0x3000 || c = '(' || c = ')' || n = 0xFF08 || n = 0xFF09 ||
    n = 0xFF3B || n = 0xFF3D || c = '.' || c = '[' || c = ']' || c = '/' || c = '~' ||
    n = 0x2053 || n = 0x223C

/-- `STAR_SIGN` as a class test. -/
def isStarSign (c : Char) : Bool := c = '*'

/-- The ASCII `\d` class (used by the compiled US metadata patterns). -/
def REasciiDigit : RE := .cls isAsciiDigitChar

/-- A case-insensitive single-character literal (ASCII folding). -/
def REcharCI (c : Char) : RE := .cls (fun x => toAsciiUpper x = toAsciiUpper c)

/-- A case-insensitive string literal (ASCII folding). -/
def REstrCI (s : String) : RE := s.data.foldr (fun c r => RE.cat (REcharCI c) r) .eps

/-- `valid_phone_number` (built in `PhoneNumberRegExpsAndMappings::new`):
`[+＋]*(?:[punct*]*\p{Nd})\x7b3,\x7d[punct*\p{Nd}a-z]*|\p{Nd}\x7b2\x7d`
(the two-digit alternative moved to the end, as in the port). -/
def REvalidPhoneNumber : RE :=
  .alt
    (.cat (.star (.cls isPlusChar))
      (.cat
        (RErepAtLeast (.cat (.star (.cls (fun c => isValidPunct c || isStarSign c))) REnd) 3)
        (.star (.cls (fun c =>
          isValidPunct c || isStarSign c || (decDigitValue c).isSome || isAsciiAlpha c)))))
    (RErep REnd 2)

/-- `extn_digits(max_length)` from `helper_functions.rs`:
`([\p{Nd}]\x7b1,max\x7d)` (the capturing parentheses only matter for
group extraction, which the engine does not model). -/
def REextnDigits (maxLength : Nat) : RE := RErepRange REnd 1 (maxLength - 1)

/-- `POSSIBLE_SEPARATORS_BETWEEN_NUMBER_AND_EXT_LABEL` (`[ \u00A0\t,]*`). -/
def REpossibleSepsBeforeExtLabel : RE :=
  .star (.cls (fun c => c = ' ' || c.toNat = 0xA0 || c = '\t' || c = ','))

/-- `POSSIBLE_CHARS_AFTER_EXT_LABEL` (`[:.．]?[ \u00A0\t,-]*`). -/
def REpossibleCharsAfterExtLabel : RE :=
  .cat (REopt (.cls (fun c => c = ':' || c = '.' || c.toNat = 0xFF0E)))
    (.star (.cls (fun c => c = ' ' || c.toNat = 0xA0 || c = '\t' || c = ',' || c = '-')))

/-- `OPTIONAL_EXT_SUFFIX` (`#?`). -/
def REoptionalExtSuffix : RE := REopt (REchar '#')

/-- The `explicit_ext_labels` alternation of `create_extn_pattern`. -/
def REexplicitExtLabels : RE :=
  .alt
    (.cat (REopt (REcharCI 'e'))
      (.cat (REstrCI "xt")
        (.cat
          (REopt (.cat (REstrCI "ensi")
            (.alt (.cat (REcharCI 'o') (REopt (REchar (Char.ofNat 0x0301))))
              (REchar (Char.ofNat 0x00F3)))))
          (REopt (REcharCI 'n')))))
    (.alt
      (.cat (REopt (REchar (Char.ofNat 0xFF45)))
        (.cat (REchar (Char.ofNat 0xFF58))
          (.cat (REchar (Char.ofNat 0xFF54)) (REopt (REchar (Char.ofNat 0xFF4E))))))
      (.alt (REstr "доб") (REstrCI "anexo")))

/-- The `ambiguous_ext_labels` alternation
(`[xｘ#＃~～]|int|ｉｎｔ`, case-insensitive). -/
def REambiguousExtLabels : RE :=
  .alt
    (.cls (fun c => toAsciiUpper c = 'X' || c = '#' || c.toNat = 0xFF03 || c = '~' ||
      c.toNat = 0xFF5E || c.toNat = 0xFF58))
    (.alt (REstrCI "int")
      (.cat (REchar (Char.ofNat 0xFF49))
        (.cat (REchar (Char.ofNat 0xFF4E)) (REchar (Char.ofNat 0xFF54)))))

/-- `create_extn_pattern(true)` from `helper_functions.rs`: the six
alternatives (RFC `;ext=`, explicit label, ambiguous label, American
`- 503#` style, auto-dialling `,,`/`;`, and only-commas). -/
def REextnForParsing : RE :=
  .alt (.cat (REstrCI ";ext=") (REextnDigits 20))
    (.alt
      (.cat REpossibleSepsBeforeExtLabel
        (.cat REexplicitExtLabels
          (.cat REpossibleCharsAfterExtLabel
            (.cat (REextnDigits 20) REoptionalExtSuffix))))
      (.alt
        (.cat REpossibleSepsBeforeExtLabel
          (.cat REambiguousExtLabels
            (.cat REpossibleCharsAfterExtLabel
              (.cat (REextnDigits 9) REoptionalExtSuffix))))
        (.alt
          (.cat (RErepAtLeast (.cls (fun c => c = '-' || c = ' ')) 1)
            (.cat (REextnDigits 6) (REchar '#')))
          (.alt
            (.cat (.star (.cls (fun c => c = ' ' || c.toNat = 0xA0 || c = '\t')))
              (.cat (.alt (REstr ",,") (REchar ';'))
                (.cat REpossibleCharsAfterExtLabel
                  (.cat (REextnDigits 15) REoptionalExtSuffix))))
            (.cat (.star (.cls (fun c => c = ' ' || c.toNat = 0xA0 || c = '\t')))
              (.cat (RErepAtLeast (REchar ',') 1)
                (.cat REpossibleCharsAfterExtLabel
                  (.cat (REextnDigits 9) REoptionalExtSuffix))))))))

/-- `valid_phone_number_pattern`:
`(?i)^(?:valid_phone_number)(?:extn_patterns_for_parsing)?$`. -/
def REvalidPhoneNumberFull : RE := .cat REvalidPhoneNumber (REopt REextnForParsing)

/-- Leftmost start index of an end-anchored match (`(?:r)$`): the least
`i` such that the suffix starting at `i` fully matches `r`. -/
def findEndAnchoredStart (r : RE) : List Char → Nat → Option Nat
  | [], i => if r.nullable then some i else none
  | l@(_ :: t), i => if REmatchList r l then some i else findEndAnchoredStart r t (i + 1)

/-- Does `[\\/] *x` match starting at this list position (the second-number
marker of `CAPTURE_UP_TO_SECOND_NUMBER_START`)? -/
def secondNumberMarkerAt : List Char → Bool
  | c :: rest => (c = '\\' || c = '/') && ((rest.dropWhile (fun x => x = ' ')).head? = some 'x')
  | [] => false

/-- Group 1 of `capture_up_to_second_number_start_pattern.captures`
(`(.*)[\\/] *x`): the greedy `(.*)` captures up to the last marker
position (the model is exact for single-line inputs, `.` not matching
newlines being the only divergence). -/
def captureUpToSecondNumberStartImpl (s : String) : Option String :=
  (((List.range s.length).filter (fun i => secondNumberMarkerAt (s.data.drop i))).getLast?).map
    (fun i => s.take i)

/-! ## The US scenario instance

The repository compiles the XML metadata into a generated blob that is
not part of `src/`; the record below is modelled from the spec's US
scenario (country code 1, IDD `011`, national prefix `1`, ten-digit
general description with seven-digit local-only numbers, and the
3-3-4 number format). -/

/-- The compiled `general_desc.national_number_pattern` for the US. -/
def usGeneralDescPatternStr : String := "\\d\x7b10\x7d"

/-- The compiled US `number_format[0].pattern`. -/
def usFormatPatternStr : String := "(\\d\x7b3\x7d)(\\d\x7b3\x7d)(\\d\x7b4\x7d)"

/-- Engine transcription of `usGeneralDescPatternStr`. -/
def REusGeneralDesc : RE := RErep REasciiDigit 10

/-- Engine transcription of `usFormatPatternStr`. -/
def REusFormatPattern : RE :=
  .cat (RErep REasciiDigit 3) (.cat (RErep REasciiDigit 3) (RErep REasciiDigit 4))

/-- Modelled from the spec: the US general description of the compiled
metadata blob (ten-digit numbers, seven-digit local-only numbers). -/
def usGeneralDesc : PhoneNumberDesc :=
  { nationalNumberPattern := usGeneralDescPatternStr,
    possibleLength := [10], possibleLengthLocalOnly := [7] }

/-- Modelled from the spec: the US `PhoneMetadata` record of the compiled
metadata blob, restricted to the fields the scenario consults. -/
def usMetadata : PhoneMetadata :=
  { generalDesc := usGeneralDesc,
    id := "US", countryCode := 1, internationalPrefix := "011",
    nationalPrefix := "1", nationalPrefixForParsing := "1",
    numberFormat := [{ pattern := usFormatPatternStr, format := "$1 $2 $3" }],
    mainCountryForCode := true }

/-- Modelled from the spec: the region maps of the compiled metadata
blob, restricted to the US entry. -/
def usContext : UtilContext :=
  { countryCallingCodeToRegionCodeMap := [(1, ["US"])],
    regionToMetadataMap := [("US", usMetadata)],
    countryCodeToNonGeographicalMetadataMap := [] }

/-- Expand a `Regex::replace_all` template against the capture groups
(`$1`, `$2`, ... refer to groups 1, 2, ...). -/
def substTemplate : List Char → List String → String
  | [], _ => ""
  | [c], _ => String.singleton c
  | c :: d :: rest, groups =>
    if c = '$' then
      if isAsciiDigitChar d then (groups.getD (d.toNat - 49) "") ++ substTemplate rest groups
      else String.singleton '$' ++ substTemplate (d :: rest) groups
    else String.singleton c ++ substTemplate (d :: rest) groups

/-- Modelled from the spec: the `regex`-crate capabilities instantiated
at the concrete patterns the US scenario compiles.  Single-character
full matches are the class predicates; full matches run the derivative
engine on the transcribed pattern; `find_start` of the literal IDD `011`
is literal-prefix matching; `captures_start` of the literal national
prefix `1` (no groups, no transform rule) matches a literal leading `1`;
`replace_all` of the 3-3-4 format pattern substitutes the three digit
groups of a full match; extension-capture digit groups and the
RFC3966 phone-context matchers are never consulted on the scenario path
and are modelled as non-capturing / non-matching. -/
def scenarioOps : RegexOps :=
  { validStartChar := fun c => isPlusChar c || (decDigitValue c).isSome,
    unwantedEndChar := fun c =>
      !((decDigitValue c).isSome || isAsciiAlpha c || c = '#'),
    captureUpToSecondNumberStart := captureUpToSecondNumberStartImpl,
    rfc3966GlobalNumberDigitsFullMatch := fun _ => false,
    rfc3966DomainnameFullMatch := fun _ => false,
    validPhoneNumberFullMatch := fun s => REmatchList REvalidPhoneNumberFull s.data,
    extnCap := fun s =>
      (findEndAnchoredStart REextnForParsing s.data 0).map (fun i => { start := i, ext := none }),
    iddFindStart := fun pat s => if strStartsWith s pat then some pat.length else none,
    descFullMatch := fun pat s =>
      if pat = usGeneralDescPatternStr then REmatchList REusGeneralDesc s.data
      else if pat = usFormatPatternStr then REmatchList REusFormatPattern s.data
      else false,
    npCaptures := fun pat s =>
      if pat = "1" && strStartsWith s "1" then some { matchEnd := 1, cap1 := none, cap2 := none }
      else none,
    npReplace := fun _ s _ => s,
    leadingDigitsMatchStart := fun _ _ => false,
    replaceAll := fun pat s rule =>
      if pat = usFormatPatternStr && REmatchList REusFormatPattern s.data then
        substTemplate rule.data [s.take 3, (s.drop 3).take 3, s.drop 6]
      else s }

/-- For a list whose elements are pairwise ascending, the first element is
bounded by the last. -/
theorem headD_le_getLastD_of_pairwise :
    ∀ (l : List Int), l.Pairwise (· ≤ ·) → l ≠ [] → l.headD (-1) ≤ l.getLastD (-1) := by
  intro l
  induction l with
  | nil => intro _ h; exact absurd rfl h
  | cons x xs ih =>
    intro hs _
    cases xs with
    | nil => simp
    | cons y ys =>
      have hx : x ≤ y := (List.pairwise_cons.mp hs).1 y (by simp)
      have h2 := ih (List.pairwise_cons.mp hs).2 (by simp)
      simp only [List.headD_cons, List.getLastD_cons] at h2 ⊢
      exact le_trans hx h2

/-- `lengthVerdict` agrees with the spec-side classification whenever the
possible-length list is ascending. -/
theorem lengthVerdict_eq_spec (pl ll : List Int) (len : Int)
    (hs : pl.Pairwise (· ≤ ·)) :
    lengthVerdict pl ll len = specTestNumberLength pl ll len := by
  have hle : pl.headD (-1) = -1 ∨ pl.headD (-1) ≤ pl.getLastD (-1) := by
    by_cases h : pl = []
    · left; rw [h]; rfl
    · right; exact headD_le_getLastD_of_pairwise pl hs h
  rcases hle with hle | hle
  · unfold lengthVerdict specTestNumberLength
    rw [if_pos hle, if_pos hle]
  · unfold lengthVerdict specTestNumberLength
    dsimp only []
    split_ifs <;> first | rfl | omega | tauto

/-- `testNumberLengthF` on a type that does not take the
FIXED_LINE_OR_MOBILE-without-fixed-line-data early out computes
`lengthVerdict` on the base effective length lists. -/
theorem testNumberLengthF_eq_base (recm : Unit → Except ValidationError NumberLengthType)
    (s : String) (m : PhoneMetadata) (t : PhoneNumberType)
    (h : ¬ (t = .FixedLineOrMobile ∧
      ¬ descHasPossibleNumberData (getNumberDescByType m .FixedLine))) :
    testNumberLengthF recm s m t =
      lengthVerdict (effectiveLengthListsBase m t).1 (effectiveLengthListsBase m t).2
        (s.length : Int) := by
  unfold testNumberLengthF effectiveLengthListsBase
  rw [if_neg h]

/-- `testNumberLength` computes `lengthVerdict` on the effective length
lists. -/
theorem testNumberLength_eq_verdict (s : String) (m : PhoneMetadata) (t : PhoneNumberType) :
    testNumberLength s m t =
      lengthVerdict (effectiveLengthLists m t).1 (effectiveLengthLists m t).2
        (s.length : Int) := by
  by_cases hflom : t = .FixedLineOrMobile ∧
      ¬ descHasPossibleNumberData (getNumberDescByType m .FixedLine)
  · have hmob : ¬ ((PhoneNumberType.Mobile) = .FixedLineOrMobile ∧
        ¬ descHasPossibleNumberData (getNumberDescByType m .FixedLine)) := by
      intro hcontra; exact absurd hcontra.1 (by simp)
    rw [testNumberLength, testNumberLengthF, if_pos hflom]
    rw [effectiveLengthLists, if_pos hflom]
    exact testNumberLengthF_eq_base _ s m .Mobile hmob
  · rw [testNumberLength, effectiveLengthLists, if_neg hflom]
    exact testNumberLengthF_eq_base _ s m t hflom

/-- C2, amended part: on ascending possible-length lists the code equals
the spec-side classification, and the `InvalidCountryCode` outcome never
occurs, so the five claimed outcomes are exhaustive (and, the function
being deterministic, mutually exclusive). -/
theorem testNumberLength_spec (s : String) (m : PhoneMetadata) (t : PhoneNumberType)
    (hs : ((effectiveLengthLists m t).1).Pairwise (· ≤ ·)) :
    testNumberLength s m t =
      specTestNumberLength (effectiveLengthLists m t).1 (effectiveLengthLists m t).2
        (s.length : Int) ∧
    testNumberLength s m t ≠ .error .InvalidCountryCode := by
  have h := testNumberLength_eq_verdict s m t
  constructor
  · rw [h]
    exact lengthVerdict_eq_spec _ _ _ hs
  · rw [h]
    unfold lengthVerdict
    dsimp only []
    split_ifs <;> simp

/-- Witness for `testNumberLength_spec`: a concrete US-like metadata record
with possible lengths `[10]` and local-only `[7]`, at length 10. -/
theorem testNumberLength_spec_witness :
    (((effectiveLengthLists
        { generalDesc := { possibleLength := [10], possibleLengthLocalOnly := [7] } }
        .Unknown).1).Pairwise (· ≤ ·)) ∧
    testNumberLength "6502530000"
        { generalDesc := { possibleLength := [10], possibleLengthLocalOnly := [7] } }
        .Unknown = .ok .IsPossible := by
  refine ⟨by decide, ?_⟩
  have h := (testNumberLength_spec "6502530000"
    { generalDesc := { possibleLength := [10], possibleLengthLocalOnly := [7] } }
    .Unknown (by decide)).1
  rw [h]
  rfl

/-- C2, counterexample to the claim as stated: with a metadata record whose
general description has possible lengths `[-1]` (sentinel) and local-only
lengths `[5]`, a 5-character number IS in the local-only list, yet the
code returns `InvalidLength` rather than the claimed
`IsPossibleLocalOnly` - the sentinel check precedes the local-only check. -/
theorem testNumberLength_localonly_counterexample :
    ((getNumberDescByType
        { generalDesc := { possibleLength := [-1], possibleLengthLocalOnly := [5] } }
        .Unknown).possibleLengthLocalOnly).contains ((5 : Int)) = true ∧
    ((("12345" : String)).length : Int) = 5 ∧
    testNumberLength "12345"
        { generalDesc := { possibleLength := [-1], possibleLengthLocalOnly := [5] } }
        .Unknown = .error .InvalidLength ∧
    testNumberLength "12345"
        { generalDesc := { possibleLength := [-1], possibleLengthLocalOnly := [5] } }
        .Unknown ≠ .ok .IsPossibleLocalOnly := by
  refine ⟨by decide, by decide, rfl, ?_⟩
  intro hcontra
  have hval : testNumberLength "12345"
      { generalDesc := { possibleLength := [-1], possibleLengthLocalOnly := [5] } }
      .Unknown = .error .InvalidLength := rfl
  rw [hval] at hcontra
  exact Except.noConfusion hcontra

/-- C6, amended: the early `NoMatch` exit fires when both extension fields
are PRESENT (`has_extension`, even when one holds the empty string) and
differ; otherwise, when both calling codes are non-zero, equal core-field
copies give `ExactMatch`, equal codes with one NSN a decimal-string
suffix of the other give `ShortNsnMatch`, and anything else gives
`NoMatch`. -/
theorem isNumberMatch_spec (a b : PhoneNumber) :
    (a.hasExtension ∧ b.hasExtension ∧ a.extensionGet ≠ b.extensionGet →
      isNumberMatch a b = .NoMatch) ∧
    (¬ (a.hasExtension ∧ b.hasExtension ∧ a.extensionGet ≠ b.extensionGet) →
      a.countryCodeGet ≠ 0 → b.countryCodeGet ≠ 0 →
      ((copyCoreFieldsOnly a = copyCoreFieldsOnly b → isNumberMatch a b = .ExactMatch) ∧
       (copyCoreFieldsOnly a ≠ copyCoreFieldsOnly b →
        a.countryCodeGet = b.countryCodeGet →
        isNationalNumberSuffixOfTheOther (copyCoreFieldsOnly a) (copyCoreFieldsOnly b) = true →
        isNumberMatch a b = .ShortNsnMatch) ∧
       (copyCoreFieldsOnly a ≠ copyCoreFieldsOnly b →
        ¬ (a.countryCodeGet = b.countryCodeGet ∧
           isNationalNumberSuffixOfTheOther (copyCoreFieldsOnly a) (copyCoreFieldsOnly b) = true) →
        isNumberMatch a b = .NoMatch))) := by
  have hcc : (copyCoreFieldsOnly a).countryCodeGet = a.countryCodeGet := rfl
  have hcc2 : (copyCoreFieldsOnly b).countryCodeGet = b.countryCodeGet := rfl
  constructor
  · intro hext
    unfold isNumberMatch
    rw [if_pos hext]
  · intro hext ha hb
    refine ⟨?_, ?_, ?_⟩
    · intro heq
      unfold isNumberMatch
      rw [if_neg hext]
      dsimp only []
      rw [if_pos ⟨by rw [hcc]; exact ha, by rw [hcc2]; exact hb⟩, if_pos heq]
    · intro hne hcodes hsuffix
      unfold isNumberMatch
      rw [if_neg hext]
      dsimp only []
      rw [if_pos ⟨by rw [hcc]; exact ha, by rw [hcc2]; exact hb⟩, if_neg hne,
        if_pos ⟨by rw [hcc, hcc2]; exact hcodes, hsuffix⟩]
    · intro hne hnot
      unfold isNumberMatch
      rw [if_neg hext]
      dsimp only []
      rw [if_pos ⟨by rw [hcc]; exact ha, by rw [hcc2]; exact hb⟩, if_neg hne, if_neg ?_]
      intro hcontra
      exact hnot ⟨by rw [← hcc, ← hcc2]; exact hcontra.1, hcontra.2⟩

/-- Witness for `isNumberMatch_spec`: two identical `+1 650 253 0000`
numbers are an `ExactMatch`, and a differing pair of present extensions
forces `NoMatch`. -/
theorem isNumberMatch_spec_witness :
    isNumberMatch { countryCode := some 1, nationalNumber := some 6502530000 }
        { countryCode := some 1, nationalNumber := some 6502530000 } = .ExactMatch ∧
    isNumberMatch { countryCode := some 1, nationalNumber := some 123, extension := some "11" }
        { countryCode := some 1, nationalNumber := some 123, extension := some "12" } =
      .NoMatch := by
  constructor
  · exact ((isNumberMatch_spec
      { countryCode := some 1, nationalNumber := some 6502530000 }
      { countryCode := some 1, nationalNumber := some 6502530000 }).2
        (by intro h; exact h.2.2 rfl) (by decide) (by decide)).1 rfl
  · exact (isNumberMatch_spec
      { countryCode := some 1, nationalNumber := some 123, extension := some "11" }
      { countryCode := some 1, nationalNumber := some 123, extension := some "12" }).1
        ⟨rfl, rfl, by decide⟩

/-- C6, counterexample to the claim as stated: the claim's early-exit
clause requires both extensions to be NON-EMPTY, but the code only
requires them to be present.  With extensions `Some("")` and `Some("1")`
(equal calling code 1, equal national number 123) the claim's clauses
predict `ShortNsnMatch` (no non-empty pair, codes equal and non-zero,
cores unequal, NSNs mutual suffixes), while the code answers `NoMatch`. -/
theorem isNumberMatch_emptyext_counterexample :
    isNumberMatch { countryCode := some 1, nationalNumber := some 123, extension := some "" }
        { countryCode := some 1, nationalNumber := some 123, extension := some "1" } =
      .NoMatch ∧
    ¬ (({ countryCode := some 1, nationalNumber := some 123,
          extension := some "" } : PhoneNumber).extensionGet ≠ "" ∧
       ({ countryCode := some 1, nationalNumber := some 123,
          extension := some "1" } : PhoneNumber).extensionGet ≠ "") ∧
    copyCoreFieldsOnly { countryCode := some 1, nationalNumber := some 123, extension := some "" }
      ≠ copyCoreFieldsOnly
        { countryCode := some 1, nationalNumber := some 123, extension := some "1" } ∧
    isNationalNumberSuffixOfTheOther
        (copyCoreFieldsOnly
          { countryCode := some 1, nationalNumber := some 123, extension := some "" })
        (copyCoreFieldsOnly
          { countryCode := some 1, nationalNumber := some 123, extension := some "1" }) =
      true := by
  refine ⟨rfl, ?_, ?_, rfl⟩
  · intro h
    exact h.1 rfl
  · intro h
    have h2 := congrArg PhoneNumber.extension h
    simp only [copyCoreFieldsOnly] at h2
    exact absurd (Option.some.inj h2) (by decide)

/-- C10: `truncate_too_long_number` mutates at most `national_number`: for
every behaviour of the validity oracles, (a) any successful run leaves
every field other than `national_number` unchanged, (b) an
already-valid number is returned unchanged with `Ok(true)`, and (c) an
`Ok(false)` outcome leaves the number completely unchanged. -/
theorem truncateTooLongNumber_frame (isPossibleTooShort : PhoneNumber → Bool)
    (isValid : PhoneNumber → Except Unit Bool) (p : PhoneNumber) :
    (∀ flag q, truncateTooLongNumber isPossibleTooShort isValid p = .ok (flag, q) →
      q = { p with nationalNumber := q.nationalNumber }) ∧
    (isValid p = .ok true →
      truncateTooLongNumber isPossibleTooShort isValid p = .ok (true, p)) ∧
    (∀ q, truncateTooLongNumber isPossibleTooShort isValid p = .ok (false, q) → q = p) := by
  refine ⟨?_, ?_, ?_⟩
  · intro flag q h
    unfold truncateTooLongNumber at h
    cases hv : isValid p with
    | error e => rw [hv] at h; exact Except.noConfusion h
    | ok b =>
      rw [hv] at h
      cases b with
      | true =>
        simp only [] at h
        injection h with h
        injection h with h1 h2
        rw [← h2]
      | false =>
        simp only [] at h
        cases hl : truncateLoop isPossibleTooShort isValid p p.nationalNumberGet with
        | error e => rw [hl] at h; exact Except.noConfusion h
        | ok r =>
          rw [hl] at h
          cases r with
          | none =>
            injection h with h
            injection h with h1 h2
            rw [← h2]
          | some nn =>
            injection h with h
            injection h with h1 h2
            rw [← h2]
  · intro hv
    unfold truncateTooLongNumber
    rw [hv]
  · intro q h
    unfold truncateTooLongNumber at h
    cases hv : isValid p with
    | error e => rw [hv] at h; exact Except.noConfusion h
    | ok b =>
      rw [hv] at h
      cases b with
      | true =>
        simp only [] at h
        injection h with h
        injection h with h1 h2
        exact absurd h1.symm (by decide)
      | false =>
        simp only [] at h
        cases hl : truncateLoop isPossibleTooShort isValid p p.nationalNumberGet with
        | error e => rw [hl] at h; exact Except.noConfusion h
        | ok r =>
          rw [hl] at h
          cases r with
          | none =>
            injection h with h
            injection h with h1 h2
            rw [← h2]
          | some nn =>
            injection h with h
            injection h with h1 h2
            exact absurd h1.symm (by decide)

/-- Witness for `truncateTooLongNumber_frame`: with an oracle that deems
everything valid, a concrete number is returned unchanged with
`Ok(true)`. -/
theorem truncateTooLongNumber_frame_witness :
    truncateTooLongNumber (fun _ => false) (fun _ => .ok true)
      { countryCode := some 1, nationalNumber := some 6502530000 } =
      .ok (true, { countryCode := some 1, nationalNumber := some 6502530000 }) :=
  (truncateTooLongNumber_frame (fun _ => false) (fun _ => .ok true)
    { countryCode := some 1, nationalNumber := some 6502530000 }).2.1 rfl

/-! ### `extract_country_code` (claims C4 and C9) -/

/-- On all-digit input the digit-parse accumulator succeeds and computes
the left fold. -/
theorem digitsValAux_eq :
    ∀ (l : List Char), (∀ c ∈ l, isAsciiDigitChar c = true) → ∀ acc,
      digitsValAux l acc =
        some (l.foldl (fun a c => a * 10 + (c.toNat - 48)) acc) := by
  intro l
  induction l with
  | nil => intro _ acc; rfl
  | cons c cs ih =>
    intro h acc
    unfold digitsValAux
    rw [if_pos (h c (by simp)), List.foldl_cons]
    exact ih (fun c' hc' => h c' (by simp [hc'])) _

/-- On non-empty all-digit input `from_str_radix` succeeds with the
digit value. -/
theorem fromStrRadix10_digits (l : List Char) (hne : l ≠ [])
    (h : ∀ c ∈ l, isAsciiDigitChar c = true) :
    fromStrRadix10 l = some (digitsVal10 l) := by
  cases l with
  | nil => exact absurd rfl hne
  | cons c cs =>
    have hc := of_decide_eq_true (by simpa [isAsciiDigitChar] using h c (by simp))
    have hplus : ¬ (c = '+') := by
      intro hcontra
      rw [hcontra] at hc
      have hv : ('+').toNat = 43 := rfl
      omega
    have hminus : ¬ (c = '-') := by
      intro hcontra
      rw [hcontra] at hc
      have hv : ('-').toNat = 45 := rfl
      omega
    unfold fromStrRadix10
    dsimp only []
    rw [if_neg hplus, if_neg hminus, digitsValAux_eq (c :: cs) h 0]
    rfl

/-- Splitting an all-ASCII-digit list after `i ≤ length` bytes is exactly
`take`/`drop` at `i` characters (each digit is one byte). -/
theorem splitBytes_ascii :
    ∀ (l : List Char), (∀ c ∈ l, isAsciiDigitChar c = true) →
      ∀ i, i ≤ l.length → splitBytes l i = some (l.take i, l.drop i) := by
  intro l
  induction l with
  | nil =>
    intro _ i hi
    have : i = 0 := by simpa using hi
    subst this
    rfl
  | cons c cs ih =>
    intro h i hi
    cases i with
    | zero => rfl
    | succ n =>
      have hc := of_decide_eq_true (by simpa [isAsciiDigitChar] using h c (by simp))
      have hsize : c.utf8Size = 1 := by
        have hn : c.toNat = 48 ∨ c.toNat = 49 ∨ c.toNat = 50 ∨ c.toNat = 51 ∨
            c.toNat = 52 ∨ c.toNat = 53 ∨ c.toNat = 54 ∨ c.toNat = 55 ∨
            c.toNat = 56 ∨ c.toNat = 57 := by omega
        rcases hn with h' | h' | h' | h' | h' | h' | h' | h' | h' | h' <;>
          · have hco := (Char.ofNat_toNat c).symm
            rw [h'] at hco
            rw [hco]
            decide
      unfold splitBytes
      rw [hsize]
      rw [if_pos (by omega)]
      have harith : n + 1 - 1 = n := by omega
      rw [harith, ih (fun c' hc' => h c' (by simp [hc'])) n (by simpa using hi)]
      rfl

/-- The checked (byte-slicing) loop agrees with the character-level loop
when every index is in bounds of an all-digit input: no slice panics. -/
theorem eccTryChecked_eq (knownCode : Int → Bool) (l : List Char)
    (h : ∀ c ∈ l, isAsciiDigitChar c = true) :
    ∀ (idxs : List Nat), (∀ i ∈ idxs, i ≤ l.length) →
      eccTryChecked knownCode l idxs = some (eccTry knownCode l idxs) := by
  intro idxs
  induction idxs with
  | nil => intro _; rfl
  | cons i rest ih =>
    intro hb
    unfold eccTryChecked eccTry
    rw [splitBytes_ascii l h i (hb i (by simp))]
    dsimp only []
    cases hf : fromStrRadix10 (l.take i) with
    | none =>
      dsimp only []
      exact ih (fun j hj => hb j (by simp [hj]))
    | some code =>
      dsimp only []
      by_cases hk : knownCode code = true
      · rw [if_pos hk, if_pos hk]
      · rw [if_neg hk, if_neg hk]
        exact ih (fun j hj => hb j (by simp [hj]))

/-- C9: on an input of at least 3 ASCII digits (which the call site in
`maybe_extract_country_code` guarantees, rejecting shorter remainders
with TooShortAfterIdd after normalization), every byte slice taken by
`extract_country_code` is in bounds and on a character boundary: the
checked model never panics and returns exactly the character-level
result (`None`, or a `(suffix, code)` pair). -/
theorem extractCountryCode_no_panic (knownCode : Int → Bool) (l : List Char)
    (hdig : ∀ c ∈ l, isAsciiDigitChar c = true) (hlen : 3 ≤ l.length) :
    extractCountryCodeChecked knownCode l = some (extractCountryCode knownCode l) := by
  unfold extractCountryCodeChecked extractCountryCode
  by_cases h0 : l = [] ∨ l.headD ' ' = '0'
  · rw [if_pos h0, if_pos h0]
  · rw [if_neg h0, if_neg h0]
    refine eccTryChecked_eq knownCode l hdig _ ?_
    intro i hi
    have : i < MAX_LENGTH_COUNTRY_CODE + 1 := List.mem_range.mp hi
    unfold MAX_LENGTH_COUNTRY_CODE at this
    omega

/-- Witness for `extractCountryCode_no_panic`: the calling-code-1 lookup
on the digits of "16502530000". -/
theorem extractCountryCode_no_panic_witness :
    extractCountryCodeChecked (fun code => code == 1) ("16502530000").data =
      some (extractCountryCode (fun code => code == 1) ("16502530000").data) :=
  extractCountryCode_no_panic (fun code => code == 1) ("16502530000").data
    (by decide) (by decide)

/-- The loop over indices `[1, 2, 3]` is the first-match search of the
spec, on all-digit input with indices in bounds. -/
theorem eccTry_eq_find (knownCode : Int → Bool) (l : List Char)
    (hdig : ∀ c ∈ l, isAsciiDigitChar c = true) :
    ∀ (idxs : List Nat), (∀ i ∈ idxs, 1 ≤ i ∧ i ≤ l.length) →
      eccTry knownCode l idxs =
        (match idxs.find? (fun i => knownCode (digitsVal10 (l.take i))) with
         | some i => some (l.drop i, digitsVal10 (l.take i))
         | none => none) := by
  intro idxs
  induction idxs with
  | nil => intro _; rfl
  | cons i rest ih =>
    intro hb
    have hbi := hb i (by simp)
    have htake : fromStrRadix10 (l.take i) = some (digitsVal10 (l.take i)) := by
      refine fromStrRadix10_digits _ ?_ ?_
      · have : (l.take i).length = i := by
          rw [List.length_take]
          omega
        intro hcontra
        rw [hcontra] at this
        simp at this
        omega
      · intro c hc
        exact hdig c (List.mem_of_mem_take hc)
    unfold eccTry
    rw [htake, List.find?_cons]
    dsimp only []
    by_cases hk : knownCode (digitsVal10 (l.take i)) = true
    · rw [if_pos hk, hk]
    · have hkf : knownCode (digitsVal10 (l.take i)) = false := by
        cases hkk : knownCode (digitsVal10 (l.take i))
        · rfl
        · exact absurd hkk hk
      rw [if_neg hk, hkf]
      dsimp only []
      exact ih (fun j hj => hb j (by simp [hj]))

/-- C4: on a normalized digit string of length at least 3 (the shape the
parser hands to it), `extract_country_code` rejects empty or leading-'0'
input, otherwise tries the numeric values of the digit prefixes of
lengths 1, 2, 3 in ascending order, returning the first that resolves to
a known region together with the remaining suffix, and returns `none`
when no length resolves.  (The loop also runs `i = 0`, whose empty slice
fails numeric parsing, which the spec-side function omits.) -/
theorem extractCountryCode_spec (knownCode : Int → Bool) (l : List Char)
    (hdig : ∀ c ∈ l, isAsciiDigitChar c = true) (hlen : 3 ≤ l.length) :
    extractCountryCode knownCode l = specExtractCountryCode knownCode l := by
  unfold extractCountryCode specExtractCountryCode
  by_cases h0 : l = [] ∨ l.headD ' ' = '0'
  · rw [if_pos h0, if_pos h0]
  · rw [if_neg h0, if_neg h0]
    have hrange : List.range (MAX_LENGTH_COUNTRY_CODE + 1) = [0, 1, 2, 3] := rfl
    rw [hrange]
    have h00 : fromStrRadix10 (l.take 0) = none := rfl
    unfold eccTry
    rw [h00]
    exact eccTry_eq_find knownCode l hdig [1, 2, 3] (by
      intro i hi
      have h123 : i = 1 ∨ i = 2 ∨ i = 3 := by simpa using hi
      rcases h123 with h | h | h <;> (subst h; omega))

/-- Witness for `extractCountryCode_spec`: digits of "16502530000" with a
calling-code index recognizing only code 1 yield code 1 and suffix
"6502530000". -/
theorem extractCountryCode_spec_witness :
    extractCountryCode (fun code => code == 1) ("16502530000").data =
      specExtractCountryCode (fun code => code == 1) ("16502530000").data ∧
    extractCountryCode (fun code => code == 1) ("16502530000").data =
      some (("6502530000").data, 1) := by
  refine ⟨extractCountryCode_spec (fun code => code == 1) ("16502530000").data
    (by decide) (by decide), ?_⟩
  rfl

/-! ### Prefix-stripping safety (claim C5) -/

/-- Case analysis for the stripper: either it returns the input untouched
with no carrier code, or it commits exactly the branch candidate - and a
committed candidate passes the general descriptor whenever the input
did (the try/validate/commit-or-revert discipline). -/
theorem maybeStrip_dichotomy (matcher : String → PhoneNumberDesc → Bool)
    (npCaptures : String → String → Option CapturesStart)
    (npReplace : String → String → String → String)
    (metadata : PhoneMetadata) (phoneNumber : String) :
    maybeStripNationalPrefixAndCarrierCode matcher npCaptures npReplace metadata phoneNumber
      = (phoneNumber, none) ∨
    (∃ cand carrier,
      strippingCandidate npCaptures npReplace metadata phoneNumber = some cand ∧
      maybeStripNationalPrefixAndCarrierCode matcher npCaptures npReplace metadata phoneNumber
        = (cand, carrier) ∧
      (matcher phoneNumber metadata.generalDesc = true →
        matcher cand metadata.generalDesc = true)) := by
  by_cases h0 : phoneNumber = "" ∨ metadata.nationalPrefixForParsing = ""
  · left
    simp only [maybeStripNationalPrefixAndCarrierCode, if_pos h0]
  · cases hcap : npCaptures metadata.nationalPrefixForParsing phoneNumber with
    | none =>
      left
      simp only [maybeStripNationalPrefixAndCarrierCode, if_neg h0, hcap]
    | some captures =>
      cases hc1 : captures.cap1 with
      | some fc =>
        by_cases hcond :
            stripCondition metadata.nationalPrefixTransformRule captures.cap2 fc = true
        · by_cases hrev : matcher phoneNumber metadata.generalDesc = true ∧
              matcher (npReplace metadata.nationalPrefixForParsing phoneNumber
                metadata.nationalPrefixTransformRule) metadata.generalDesc = false
          · left
            simp only [maybeStripNationalPrefixAndCarrierCode, if_neg h0, hcap, hc1,
              if_pos hcond, if_pos hrev]
          · right
            refine ⟨npReplace metadata.nationalPrefixForParsing phoneNumber
                metadata.nationalPrefixTransformRule,
              (if captures.cap2.isSome then some fc else none), ?_, ?_, ?_⟩
            · simp only [strippingCandidate, if_neg h0, hcap, hc1, if_pos hcond]
            · simp only [maybeStripNationalPrefixAndCarrierCode, if_neg h0, hcap, hc1,
                if_pos hcond, if_neg hrev]
            · intro hv
              by_contra hfail
              exact hrev ⟨hv, by
                cases hm : matcher (npReplace metadata.nationalPrefixForParsing phoneNumber
                    metadata.nationalPrefixTransformRule) metadata.generalDesc
                · rfl
                · exact absurd hm hfail⟩
        · by_cases hrev : matcher phoneNumber metadata.generalDesc = true ∧
              matcher (phoneNumber.drop captures.matchEnd) metadata.generalDesc = false
          · left
            simp only [maybeStripNationalPrefixAndCarrierCode, if_neg h0, hcap, hc1,
              if_neg hcond, if_pos hrev]
          · right
            refine ⟨phoneNumber.drop captures.matchEnd, some fc, ?_, ?_, ?_⟩
            · simp only [strippingCandidate, if_neg h0, hcap, hc1, if_neg hcond]
            · simp only [maybeStripNationalPrefixAndCarrierCode, if_neg h0, hcap, hc1,
                if_neg hcond, if_neg hrev]
            · intro hv
              by_contra hfail
              exact hrev ⟨hv, by
                cases hm : matcher (phoneNumber.drop captures.matchEnd) metadata.generalDesc
                · rfl
                · exact absurd hm hfail⟩
      | none =>
        by_cases hrev : matcher phoneNumber metadata.generalDesc = true ∧
            matcher (phoneNumber.drop captures.matchEnd) metadata.generalDesc = false
        · left
          simp only [maybeStripNationalPrefixAndCarrierCode, if_neg h0, hcap, hc1, if_pos hrev]
        · right
          refine ⟨phoneNumber.drop captures.matchEnd, none, ?_, ?_, ?_⟩
          · simp only [strippingCandidate, if_neg h0, hcap, hc1]
          · simp only [maybeStripNationalPrefixAndCarrierCode, if_neg h0, hcap, hc1,
              if_neg hrev]
          · intro hv
            by_contra hfail
            exact hrev ⟨hv, by
              cases hm : matcher (phoneNumber.drop captures.matchEnd) metadata.generalDesc
              · rfl
              · exact absurd hm hfail⟩

/-- C5: when the input passes the region's general descriptor, the number
returned by the stripper also passes it; the function either returns the
input unchanged with no carrier code or commits the branch candidate;
and whenever the candidate fails the general pattern the function
reverts, returning the input unchanged with no carrier code. -/
theorem maybeStripNationalPrefix_safety (matcher : String → PhoneNumberDesc → Bool)
    (npCaptures : String → String → Option CapturesStart)
    (npReplace : String → String → String → String)
    (metadata : PhoneMetadata) (phoneNumber : String)
    (hviable : matcher phoneNumber metadata.generalDesc = true) :
    matcher (maybeStripNationalPrefixAndCarrierCode matcher npCaptures npReplace
        metadata phoneNumber).1 metadata.generalDesc = true ∧
    (maybeStripNationalPrefixAndCarrierCode matcher npCaptures npReplace metadata phoneNumber
        = (phoneNumber, none) ∨
      strippingCandidate npCaptures npReplace metadata phoneNumber =
        some (maybeStripNationalPrefixAndCarrierCode matcher npCaptures npReplace
          metadata phoneNumber).1) ∧
    (∀ cand, strippingCandidate npCaptures npReplace metadata phoneNumber = some cand →
      matcher cand metadata.generalDesc = false →
      maybeStripNationalPrefixAndCarrierCode matcher npCaptures npReplace metadata phoneNumber
        = (phoneNumber, none)) := by
  refine ⟨?_, ?_, ?_⟩
  · rcases maybeStrip_dichotomy matcher npCaptures npReplace metadata phoneNumber with
      h | ⟨cand, carrier, _, hres, himp⟩
    · rw [h]; exact hviable
    · rw [hres]; exact himp hviable
  · rcases maybeStrip_dichotomy matcher npCaptures npReplace metadata phoneNumber with
      h | ⟨cand, carrier, hcand, hres, _⟩
    · left; exact h
    · right; rw [hres, hcand]
  · intro cand hcand hfail
    rcases maybeStrip_dichotomy matcher npCaptures npReplace metadata phoneNumber with
      h | ⟨cand', carrier, hcand', hres, himp⟩
    · exact h
    · rw [hcand] at hcand'
      injection hcand' with hcc
      subst hcc
      exact absurd (himp hviable) (by rw [hfail]; exact Bool.false_ne_true)

/-- Witness for `maybeStripNationalPrefix_safety`: a length-at-least-10
matcher, a literal-prefix `captures_start`, and metadata with national
prefix "1"; stripping "16502530000" yields a number still accepted by
the matcher. -/
theorem maybeStripNationalPrefix_safety_witness :
    (fun (s : String) (_ : PhoneNumberDesc) => decide (10 ≤ s.length))
        (maybeStripNationalPrefixAndCarrierCode
          (fun (s : String) (_ : PhoneNumberDesc) => decide (10 ≤ s.length))
          (fun pat s => if s.startsWith pat then some { matchEnd := pat.length } else none)
          (fun _ s _ => s)
          { nationalPrefixForParsing := "1" } "16502530000").1
        ({ nationalPrefixForParsing := "1" } : PhoneMetadata).generalDesc = true :=
  (maybeStripNationalPrefix_safety
    (fun (s : String) (_ : PhoneNumberDesc) => decide (10 ≤ s.length))
    (fun pat s => if s.startsWith pat then some { matchEnd := pat.length } else none)
    (fun _ s _ => s)
    { nationalPrefixForParsing := "1" } "16502530000" (by decide)).1

/-! ### Idempotence of `normalize` (claim C8) -/

/-- An ASCII digit is not an ASCII letter. -/
theorem not_alpha_of_digit (c : Char) (h : isAsciiDigitChar c = true) :
    isAsciiAlpha c = false := by
  unfold isAsciiDigitChar at h
  have h' := of_decide_eq_true h
  unfold isAsciiAlpha
  exact decide_eq_false (by omega)

/-- Association-list lookup only returns stored values. -/
theorem lookup_mem {α β : Type} [DecidableEq α] [BEq α] [LawfulBEq α] :
    ∀ (l : List (α × β)) (k : α) (v : β), l.lookup k = some v → (k, v) ∈ l := by
  intro l
  induction l with
  | nil => intro k v h; exact Option.noConfusion h
  | cons p ps ih =>
    intro k v h
    unfold List.lookup at h
    split at h
    · rename_i heq
      injection h with h
      subst h
      have hk : k = p.1 := by
        have := of_decide_eq_true (by simpa using heq)
        exact this
      have hkv : (k, p.2) = p := by rw [hk]
      rw [hkv]
      exact List.mem_cons_self _ _
    · right
      exact ih k v h

/-- Every value stored in `alpha_phone_mappings` is an ASCII digit. -/
theorem alphaPhoneMappings_values_digit :
    ∀ p ∈ alphaPhoneMappingsList, isAsciiDigitChar p.2 = true := by decide

/-- Characters of segments produced by `splitOnNewline` come from the
input. -/
theorem mem_of_mem_splitOnNewline :
    ∀ (l : List Char) (seg : List Char), seg ∈ splitOnNewline l →
      ∀ c ∈ seg, c ∈ l := by
  intro l
  induction l with
  | nil =>
    intro seg hseg c hc
    unfold splitOnNewline at hseg
    simp only [List.mem_singleton] at hseg
    subst hseg
    exact absurd hc (by simp)
  | cons x xs ih =>
    intro seg hseg c hc
    unfold splitOnNewline at hseg
    by_cases hx : x = '\n'
    · rw [if_pos hx] at hseg
      rcases List.mem_cons.mp hseg with h | h
      · subst h; exact absurd hc (by simp)
      · exact List.mem_cons_of_mem _ (ih seg h c hc)
    · rw [if_neg hx] at hseg
      cases hr : splitOnNewline xs with
      | nil =>
        rw [hr] at hseg
        simp only [List.mem_singleton] at hseg
        subst hseg
        rcases List.mem_singleton.mp hc with h
        rw [h]; exact List.mem_cons_self x xs
      | cons seg0 rest =>
        rw [hr] at hseg
        rcases List.mem_cons.mp hseg with h | h
        · subst h
          rcases List.mem_cons.mp hc with h | h
          · rw [h]; exact List.mem_cons_self x xs
          · exact List.mem_cons_of_mem _
              (ih seg0 (by rw [hr]; exact List.mem_cons_self seg0 rest) c h)
        · exact List.mem_cons_of_mem _
            (ih seg (by rw [hr]; exact List.mem_cons_of_mem seg0 h) c hc)

/-- A string of ASCII digits never triggers the vanity (alpha) branch. -/
theorem validAlphaPhoneMatch_eq_false (s : String)
    (h : ∀ c ∈ s.data, isAsciiDigitChar c = true) :
    validAlphaPhoneMatch s = false := by
  unfold validAlphaPhoneMatch
  rw [List.any_eq_false]
  intro seg hseg
  have hfilter : seg.filter isAsciiAlpha = [] := by
    rw [List.filter_eq_nil_iff]
    intro c hc
    have hcs : c ∈ s.data := mem_of_mem_splitOnNewline s.data seg hseg c hc
    rw [not_alpha_of_digit c (h c hcs)]
    exact Bool.false_ne_true
  rw [hfilter]
  decide

/-- Output characters of the alpha-keypad normalization are ASCII
digits. -/
theorem alphaHelper_digits (s : String) :
    ∀ c ∈ (normalizeHelper alphaPhoneMappingsList true s).data,
      isAsciiDigitChar c = true := by
  intro c hc
  unfold normalizeHelper at hc
  simp only [List.mem_filterMap] at hc
  obtain ⟨a, _, ha⟩ := hc
  revert ha
  cases hl : alphaPhoneMappingsList.lookup (toAsciiUpper a) with
  | none => intro ha; simp at ha
  | some r =>
    intro ha
    injection ha with ha
    subst ha
    exact alphaPhoneMappings_values_digit _ (lookup_mem _ _ _ hl)

/-- Output characters of digit-only normalization are ASCII digits. -/
theorem digitsOnly_digits (s : String) :
    ∀ c ∈ (normalizeDigitsOnly s).data, isAsciiDigitChar c = true := by
  intro c hc
  unfold normalizeDigitsOnly at hc
  simp only [List.mem_filterMap] at hc
  obtain ⟨a, _, ha⟩ := hc
  cases hd : decDigitValue a with
  | none => rw [hd] at ha; simp at ha
  | some v =>
    rw [hd] at ha
    simp only [Option.map_some'] at ha
    have hv : v ≤ 9 := by
      unfold decDigitValue at hd
      dsimp only [] at hd
      split_ifs at hd <;> (injection hd with hd; omega)
    have ht : (digitChar v).toNat = 48 + v := by
      interval_cases v <;> decide
    injection ha with ha
    rw [← ha]
    unfold isAsciiDigitChar
    rw [ht]
    exact decide_eq_true (by omega)

/-- Digit-only normalization fixes strings of ASCII digits. -/
theorem normalizeDigitsOnly_id (t : String)
    (h : ∀ c ∈ t.data, isAsciiDigitChar c = true) : normalizeDigitsOnly t = t := by
  unfold normalizeDigitsOnly
  cases t with
  | mk data =>
    congr 1
    induction data with
    | nil => rfl
    | cons c cs ih =>
      have hc := h c (by simp)
      have h48 := of_decide_eq_true (by simpa [isAsciiDigitChar] using hc)
      have hdec : decDigitValue c = some (c.toNat - 48) := by
        unfold decDigitValue
        dsimp only []
        rw [if_pos (by omega)]
      rw [List.filterMap_cons, hdec]
      simp only [Option.map_some']
      have hchar : digitChar (c.toNat - 48) = c := by
        unfold digitChar
        have harith : 48 + (c.toNat - 48) = c.toNat := by omega
        rw [harith, Char.ofNat_toNat]
      rw [hchar, ih (fun c' hc' => h c' (by simp [hc']))]

/-- C8: `normalize` is idempotent - a second application (the alpha
branch cannot fire on the digit-only output of the first, and digit-only
normalization fixes digit strings) returns its argument unchanged. -/
theorem normalize_idempotent (s : String) : normalize (normalize s) = normalize s := by
  by_cases h : validAlphaPhoneMatch s = true
  · have h1 : normalize s = normalizeHelper alphaPhoneMappingsList true s := by
      unfold normalize; rw [if_pos h]
    have hdig := alphaHelper_digits s
    have hva := validAlphaPhoneMatch_eq_false _ hdig
    have h2 : normalize (normalizeHelper alphaPhoneMappingsList true s) =
        normalizeDigitsOnly (normalizeHelper alphaPhoneMappingsList true s) := by
      unfold normalize
      rw [if_neg (by rw [hva]; exact Bool.false_ne_true)]
    rw [h1, h2]
    exact normalizeDigitsOnly_id _ hdig
  · have h1 : normalize s = normalizeDigitsOnly s := by
      unfold normalize; rw [if_neg h]
    have hdig := digitsOnly_digits s
    have hva := validAlphaPhoneMatch_eq_false _ hdig
    have h2 : normalize (normalizeDigitsOnly s) = normalizeDigitsOnly (normalizeDigitsOnly s) := by
      unfold normalize
      rw [if_neg (by rw [hva]; exact Bool.false_ne_true)]
    rw [h1, h2]
    exact normalizeDigitsOnly_id _ hdig

/-- C3: parsing `"650 253 0000"` with default region `"US"` over the
modelled US metadata and pattern capabilities succeeds with country code
1 and national number 6502530000, and that number formats as
`"+1 650 253 0000"` in International style and `"+16502530000"` in E164
style. -/
theorem parse_format_us_scenario :
    parse usContext scenarioOps "650 253 0000" "US" =
      Except.ok { countryCode := some 1, nationalNumber := some 6502530000 } ∧
    format usContext scenarioOps
        { countryCode := some 1, nationalNumber := some 6502530000 }
        PhoneNumberFormat.International = "+1 650 253 0000" ∧
    format usContext scenarioOps
        { countryCode := some 1, nationalNumber := some 6502530000 }
        PhoneNumberFormat.E164 = "+16502530000" := by
  refine ⟨by decide, by decide, by decide⟩

/-- C7 counterexample: after stripping the plus sign of `"+49"` the
remainder `"49"` satisfies the claim's minimum-length check (length ≥ 2),
yet `maybe_extract_country_code` reports `TooShortAfterIdd` - the code
requires the remainder to be strictly longer than `MIN_LENGTH_FOR_NSN`. -/
theorem maybeExtractCountryCode_minlen_counterexample :
    (maybeStripInternationalPrefixAndNormalize scenarioOps "+49" "NonMatch").countryCodeSource
        = CountryCodeSource.FROM_NUMBER_WITH_PLUS_SIGN ∧
    (maybeStripInternationalPrefixAndNormalize scenarioOps "+49" "NonMatch").phoneNumber
        = "49" ∧
    MIN_LENGTH_FOR_NSN ≤ "49".length ∧
    (maybeExtractCountryCode usContext scenarioOps none false "+49" {}).2 =
      Except.error ParseError.TooShortAfterIdd := by
  refine ⟨by decide, by decide, by decide, by decide⟩

/-- C7 (amended): when the international-prefix strip reports a source
other than FROM_DEFAULT_COUNTRY, a remainder of length at most
`MIN_LENGTH_FOR_NSN` (= 2, so the check that must pass is length ≥ 3,
not ≥ 2) makes `maybe_extract_country_code` return `TooShortAfterIdd`;
and the final bounds of `parse_helper` return `TooShortNsn` below length
2 and `TooLongNsn` above length 17. -/
theorem parse_length_error_bounds :
    (∀ (ctx : UtilContext) (ops : RegexOps) (metaOpt : Option PhoneMetadata)
        (keepRaw : Bool) (nn : String) (pn : PhoneNumber),
      (maybeStripInternationalPrefixAndNormalize ops nn
          (match metaOpt with
            | some m => m.internationalPrefix
            | none => "NonMatch")).countryCodeSource ≠
          CountryCodeSource.FROM_DEFAULT_COUNTRY →
      (maybeStripInternationalPrefixAndNormalize ops nn
          (match metaOpt with
            | some m => m.internationalPrefix
            | none => "NonMatch")).phoneNumber.length ≤ MIN_LENGTH_FOR_NSN →
      (maybeExtractCountryCode ctx ops metaOpt keepRaw nn pn).2 =
        Except.error ParseError.TooShortAfterIdd) ∧
    (∀ (s : String) (cc : Int) (t : PhoneNumber),
      s.length < MIN_LENGTH_FOR_NSN →
      parseFinalize s cc t = Except.error ParseError.TooShortNsn) ∧
    (∀ (s : String) (cc : Int) (t : PhoneNumber),
      MAX_LENGTH_FOR_NSN < s.length →
      parseFinalize s cc t = Except.error ParseError.TooLongNsn) := by
  refine ⟨?_, ?_, ?_⟩
  · intro ctx ops metaOpt keepRaw nn pn hsrc hlen
    unfold maybeExtractCountryCode
    dsimp only []
    rw [if_pos hsrc, if_pos hlen]
  · intro s cc t h
    unfold parseFinalize
    rw [if_pos h]
  · intro s cc t h
    have h1 : ¬ (s.length < MIN_LENGTH_FOR_NSN) := by
      simp only [MIN_LENGTH_FOR_NSN, MAX_LENGTH_FOR_NSN] at *
      omega
    unfold parseFinalize
    rw [if_neg h1, if_pos h]

/-- Closed instantiation of `parse_length_error_bounds`. -/
theorem parse_length_error_bounds_witness :
    (maybeExtractCountryCode usContext scenarioOps none false "+49" {}).2 =
      Except.error ParseError.TooShortAfterIdd ∧
    parseFinalize "4" 49 {} = Except.error ParseError.TooShortNsn ∧
    parseFinalize "123456789012345678" 49 {} = Except.error ParseError.TooLongNsn := by
  refine ⟨parse_length_error_bounds.1 usContext scenarioOps none false "+49" {}
      (by decide) (by decide),
    parse_length_error_bounds.2.1 "4" 49 {} (by decide),
    parse_length_error_bounds.2.2 "123456789012345678" 49 {} (by decide)⟩

end RPhone
